import Mathlib

/-!
# EDXRay `RoughDielectric` BSDF

A shallow embedding of `src/EDXRay/BSDFs/RoughDielectric.h`.

Conventions of the embedding

* `float` is an arbitrary linearly ordered field `K` (exact arithmetic: no rounding, no NaN,
  no infinities; as everywhere in Mathlib `x / 0 = 0`).  Instantiated at `ℚ` every definition
  below is executable.
* `ScatterType` is a natural number used as a bit mask, `&` is `&&&` and `|` is `|||`.
* Everything `RoughDielectric.h` uses but does not define (the base class `BSDF`, the GGX
  helpers, the math library, textures, the shading frame) is collected in `Externals`, and
  for the parameter methods in `BSDFBase`; the theorems hold for every value of these fields
  unless a hypothesis says otherwise.
* Every element of `K` is a valid number, so `Assert(Math::NumericValid(..))` has no
  counterpart in the value a method returns; the divisions a method performs are listed
  separately (`PdfInner.divisions`, `EvalInner.divisions`), and a pair `(0, 0)` there marks an
  input on which the source computes `0 / 0`.
-/

namespace EDXRay

/-! ## Vectors and colours -/

/-- A 3-vector of `float`s (`Vector3`). -/
structure Vector3 (K : Type) where
  x : K
  y : K
  z : K
deriving DecidableEq

/-- An RGB value (`Color`). -/
structure Color (K : Type) where
  r : K
  g : K
  b : K
deriving DecidableEq

/-- A texture owned by the material: either a `ConstantTexture2D` holding one value or an
`ImageTexture` read from a file. -/
inductive Texture2D (α : Type) where
  | constant (value : α)
  | image (path : String)

namespace Vector3

variable {K : Type} [LinearOrderedField K]

/-- The constant `Vector3::ZERO`. -/
def ZERO : Vector3 K := ⟨0, 0, 0⟩

/-- Component-wise sum, `a + b`. -/
def add (a b : Vector3 K) : Vector3 K := ⟨a.x + b.x, a.y + b.y, a.z + b.z⟩

/-- Unary minus, `-a`. -/
def neg (a : Vector3 K) : Vector3 K := ⟨-a.x, -a.y, -a.z⟩

/-- Scalar times vector, `s * a` (also `a *= s`). -/
def scale (s : K) (a : Vector3 K) : Vector3 K := ⟨s * a.x, s * a.y, s * a.z⟩

/-- Vector divided by a scalar, `a / s`. -/
def divScalar (a : Vector3 K) (s : K) : Vector3 K := ⟨a.x / s, a.y / s, a.z / s⟩

instance : Add (Vector3 K) := ⟨add⟩
instance : Neg (Vector3 K) := ⟨neg⟩
instance : HMul K (Vector3 K) (Vector3 K) := ⟨scale⟩

end Vector3

namespace Color

variable {K : Type} [LinearOrderedField K]

/-- Colour times scalar, `c * s`. -/
def mulScalar (c : Color K) (s : K) : Color K := ⟨c.r * s, c.g * s, c.b * s⟩

instance : HMul (Color K) K (Color K) := ⟨mulScalar⟩

end Color

/-! ## What the header takes from elsewhere -/

/-- The functions and constants `RoughDielectric.h` uses without defining them.
`Geom` stands for `DifferentialGeom`. -/
structure Externals (K Geom : Type) where
  /-- The function `Math::Sqrt`. -/
  Sqrt : K → K
  /-- The function `Math::Sign`, with its result converted to `float`. -/
  Sign : K → K
  /-- The flag `BSDF_REFLECTION`. -/
  BSDF_REFLECTION : Nat
  /-- The flag `BSDF_TRANSMISSION`. -/
  BSDF_TRANSMISSION : Nat
  /-- The flag `BSDF_GLOSSY`. -/
  BSDF_GLOSSY : Nat
  /-- The microfacet distribution `GGX_D(wh, alpha)`. -/
  GGX_D : Vector3 K → K → K
  /-- The shadow-masking term `GGX_G(wo, wi, wh, alpha)`. -/
  GGX_G : Vector3 K → Vector3 K → Vector3 K → K → K
  /-- The density `GGX_Pdf_VisibleNormal(wo, wh, alpha)`. -/
  GGX_Pdf_VisibleNormal : Vector3 K → Vector3 K → K → K
  /-- The Fresnel term `BSDF::FresnelDielectric(cosi, etai, etat)`. -/
  FresnelDielectric : K → K → K → K
  /-- The scalar texture lookup `GetValue(tex, diffGeom, TextureFilter::Linear)`. -/
  GetValue : Texture2D K → Geom → K
  /-- The colour texture lookup `GetValue(tex, diffGeom)`. -/
  GetValueColor : Texture2D (Color K) → Geom → Color K
  /-- The frame change `diffGeom.WorldToLocal(v)`. -/
  WorldToLocal : Geom → Vector3 K → Vector3 K

/-- The instance state: `mpTexture` (inherited from `BSDF`), `mRoughness`, `mEtai`, `mEtat`. -/
structure RoughDielectric (K : Type) where
  mpTexture : Texture2D (Color K)
  mRoughness : Texture2D K
  mEtai : K
  mEtat : K

section Code

variable {K Geom : Type} [LinearOrderedField K]

/-! ## Math helpers -/

/-- The dot product `Math::Dot`. -/
def Math.Dot (a b : Vector3 K) : K := a.x * b.x + a.y * b.y + a.z * b.z

/-- The Euclidean length `Math::Length`, the square root of `Dot(v, v)`. -/
def Math.Length (E : Externals K Geom) (v : Vector3 K) : K := E.Sqrt (Math.Dot v v)

/-- The function `Math::Normalize`: the vector divided by its length. -/
def Math.Normalize (E : Externals K Geom) (v : Vector3 K) : Vector3 K :=
  v.divScalar (Math.Length E v)

/-- Modelled from the spec: `Math::Clamp(val, lo, hi)` of the math library, which is not part
of this header; the spec says the roughness is clamped to `[0.02, 1.0]`. -/
def Math.Clamp (val lo hi : K) : K := min (max val lo) hi

/-- The absolute value `Math::Abs`. -/
def Math.Abs (a : K) : K := |a|

/-- The cosine with the frame normal, `BSDFCoordinate::CosTheta`: the third component. -/
def BSDFCoordinate.CosTheta (v : Vector3 K) : K := v.z

/-! ## The two lobes -/

/-- The constant `ReflectScatter = BSDF_REFLECTION | BSDF_GLOSSY` (line 15). -/
def ReflectScatter (E : Externals K Geom) : Nat := E.BSDF_REFLECTION ||| E.BSDF_GLOSSY

/-- The constant `RefractScatter = BSDF_TRANSMISSION | BSDF_GLOSSY` (line 16). -/
def RefractScatter (E : Externals K Geom) : Nat := E.BSDF_TRANSMISSION ||| E.BSDF_GLOSSY

/-! ## `PdfInner` (lines 57-113) -/

/-- The local variables of `PdfInner` that are live at line 98. -/
structure PdfLocals (K : Type) where
  sampleReflect : Bool
  sampleRefract : Bool
  reflect : Bool
  wh : Vector3 K
  dwh_dwi : K

/-- Lines 59-96 of `PdfInner`: the gates, the half-vector and the Jacobian.
`none` is an early `return 0.0f`; `some L` is the state in which line 98 is reached. -/
def PdfInner.head (E : Externals K Geom) (self : RoughDielectric K) (wo wi : Vector3 K)
    (types : Nat) : Option (PdfLocals K) :=
  let sampleReflect : Bool := decide (types &&& ReflectScatter E = ReflectScatter E)
  let sampleRefract : Bool := decide (types &&& RefractScatter E = RefractScatter E)
  let ODotN := BSDFCoordinate.CosTheta wo
  let IDotN := BSDFCoordinate.CosTheta wi
  let fac := ODotN * IDotN
  if fac = 0 then none
  else
    let reflect : Bool := decide (fac > 0)
    let entering : Bool := decide (ODotN > 0)
    if reflect then
      if !sampleReflect then none
      else
        let wh := Math.Normalize E (wo + wi)
        let dwh_dwi := 1 / (4 * Math.Dot wi wh)
        some ⟨sampleReflect, sampleRefract, reflect, wh, dwh_dwi⟩
    else
      if !sampleRefract then none
      else
        let etai := if !entering then self.mEtat else self.mEtai
        let etat := if !entering then self.mEtai else self.mEtat
        let wh := -Math.Normalize E (etai * wo + etat * wi)
        let ODotH := Math.Dot wo wh
        let IDotH := Math.Dot wi wh
        let sqrtDenom := etai * ODotH + etat * IDotH
        let dwh_dwi := (etat * etat * IDotH) / (sqrtDenom * sqrtDenom)
        some ⟨sampleReflect, sampleRefract, reflect, wh, dwh_dwi⟩

/-- Line 98 of `PdfInner`: the half-vector after `wh *= Sign(CosTheta(wh))`. -/
def PdfInner.orient (E : Externals K Geom) (L : PdfLocals K) : Vector3 K :=
  E.Sign (BSDFCoordinate.CosTheta L.wh) * L.wh

/-- Lines 98-112 of `PdfInner`: re-orientation, roughness, density of the half-vector,
lobe weight, result. -/
def PdfInner.tail (E : Externals K Geom) (self : RoughDielectric K) (wo : Vector3 K)
    (diffGeom : Geom) (L : PdfLocals K) : K :=
  let wh := PdfInner.orient E L
  let roughness := E.GetValue self.mRoughness diffGeom
  let roughness := Math.Clamp roughness (1 / 50) 1
  let whProb := E.GGX_Pdf_VisibleNormal (E.Sign (BSDFCoordinate.CosTheta wo) * wo) wh
    (roughness * roughness)
  let whProb :=
    if L.sampleReflect && L.sampleRefract then
      let F := E.FresnelDielectric (Math.Dot wo wh) self.mEtai self.mEtat
      whProb * (if L.reflect then F else 1 - F)
    else whProb
  Math.Abs (whProb * L.dwh_dwi)

/-- The method `RoughDielectric::PdfInner`. -/
def PdfInner (E : Externals K Geom) (self : RoughDielectric K) (wo wi : Vector3 K)
    (diffGeom : Geom) (types : Nat) : K :=
  match PdfInner.head E self wo wi types with
  | none => 0
  | some L => PdfInner.tail E self wo diffGeom L

/-- The method `RoughDielectric::Pdf` (lines 49-55). -/
def Pdf (E : Externals K Geom) (self : RoughDielectric K) (vOut vIn : Vector3 K)
    (diffGeom : Geom) (types : Nat) : K :=
  let vWo := E.WorldToLocal diffGeom vOut
  let vWi := E.WorldToLocal diffGeom vIn
  PdfInner E self vWo vWi diffGeom types

/-! ## `EvalInner` and `Eval` (lines 115-188) -/

/-- The local variables of `EvalInner` that are live at line 157. -/
structure EvalLocals (K : Type) where
  ODotN : K
  IDotN : K
  reflect : Bool
  etai : K
  etat : K
  wh : Vector3 K

/-- Lines 125-155 of `EvalInner`: the gates, the index swap and the half-vector.
`none` is an early `return 0.0f`; `some L` is the state in which line 157 is reached. -/
def EvalInner.head (E : Externals K Geom) (self : RoughDielectric K) (wo wi : Vector3 K)
    (types : Nat) : Option (EvalLocals K) :=
  let ODotN := BSDFCoordinate.CosTheta wo
  let IDotN := BSDFCoordinate.CosTheta wi
  let fac := ODotN * IDotN
  if fac = 0 then none
  else
    let reflect : Bool := decide (fac > 0)
    let entering : Bool := decide (ODotN > 0)
    let etai := if !entering then self.mEtat else self.mEtai
    let etat := if !entering then self.mEtai else self.mEtat
    if reflect then
      if ReflectScatter E &&& types ≠ ReflectScatter E then none
      else
        let wh := wo + wi
        if wh = Vector3.ZERO then none
        else
          let wh := Math.Normalize E wh
          some ⟨ODotN, IDotN, reflect, etai, etat, wh⟩
    else
      if RefractScatter E &&& types ≠ RefractScatter E then none
      else
        let wh := -Math.Normalize E (etai * wo + etat * wi)
        some ⟨ODotN, IDotN, reflect, etai, etat, wh⟩

/-- Line 157 of `EvalInner`: the half-vector after `wh *= Sign(CosTheta(wh))`. -/
def EvalInner.orient (E : Externals K Geom) (L : EvalLocals K) : Vector3 K :=
  E.Sign (BSDFCoordinate.CosTheta L.wh) * L.wh

/-- Lines 157-187 of `EvalInner`: re-orientation, roughness, `D`, `F`, `G`, result. -/
def EvalInner.tail (E : Externals K Geom) (self : RoughDielectric K) (wo wi : Vector3 K)
    (diffGeom : Geom) (L : EvalLocals K) : K :=
  let wh := EvalInner.orient E L
  let roughness := E.GetValue self.mRoughness diffGeom
  let roughness := Math.Clamp roughness (1 / 50) 1
  let sampleRough := roughness * roughness
  let D := E.GGX_D wh sampleRough
  if D = 0 then 0
  else
    let F := E.FresnelDielectric (Math.Dot wo wh) self.mEtai self.mEtat
    let G := E.GGX_G wo wi wh sampleRough
    if L.reflect then
      Math.Abs (F * D * G / (4 * BSDFCoordinate.CosTheta wi * BSDFCoordinate.CosTheta wo))
    else
      let ODotH := Math.Dot wo wh
      let IDotH := Math.Dot wi wh
      let sqrtDenom := L.etai * ODotH + L.etat * IDotH
      let value := ((1 - F) * D * G * L.etat * L.etat * ODotH * IDotH) /
        (sqrtDenom * sqrtDenom * L.ODotN * L.IDotN)
      let factor : K := 1
      Math.Abs (value * factor * factor)

/-- The method `RoughDielectric::EvalInner`. -/
def EvalInner (E : Externals K Geom) (self : RoughDielectric K) (wo wi : Vector3 K)
    (diffGeom : Geom) (types : Nat) : K :=
  match EvalInner.head E self wo wi types with
  | none => 0
  | some L => EvalInner.tail E self wo wi diffGeom L

/-- The method `RoughDielectric::Eval` (lines 115-121). -/
def Eval (E : Externals K Geom) (self : RoughDielectric K) (vOut vIn : Vector3 K)
    (diffGeom : Geom) (types : Nat) : Color K :=
  let vWo := E.WorldToLocal diffGeom vOut
  let vWi := E.WorldToLocal diffGeom vIn
  E.GetValueColor self.mpTexture diffGeom * EvalInner E self vWo vWi diffGeom types

/-! ## The divisions the two methods perform

In `float` a division by zero does not stop the program: `x / 0` is an infinity for `x ≠ 0`
and `0 / 0` is NaN, which `Math::Abs` hands on and which is not `>= 0`.  The field `K` has no
such values, so the divisions are listed here, as pairs (numerator, divisor), along the path
each method takes; a pair `(0, 0)` in the list is a `0 / 0` of the source. -/

/-- The divisions of `Math::Normalize(v)`: every component by the length. -/
def Math.NormalizeDivisions (E : Externals K Geom) (v : Vector3 K) : List (K × K) :=
  [(v.x, Math.Length E v), (v.y, Math.Length E v), (v.z, Math.Length E v)]

/-- The divisions of `PdfInner` (lines 76, 80, 91, 95) on the path it takes. -/
def PdfInner.divisions (E : Externals K Geom) (self : RoughDielectric K) (wo wi : Vector3 K)
    (types : Nat) : List (K × K) :=
  let sampleReflect : Bool := decide (types &&& ReflectScatter E = ReflectScatter E)
  let sampleRefract : Bool := decide (types &&& RefractScatter E = RefractScatter E)
  let ODotN := BSDFCoordinate.CosTheta wo
  let IDotN := BSDFCoordinate.CosTheta wi
  let fac := ODotN * IDotN
  if fac = 0 then []
  else
    let reflect : Bool := decide (fac > 0)
    let entering : Bool := decide (ODotN > 0)
    if reflect then
      if !sampleReflect then []
      else
        let wh := Math.Normalize E (wo + wi)
        Math.NormalizeDivisions E (wo + wi) ++ [(1, 4 * Math.Dot wi wh)]
    else
      if !sampleRefract then []
      else
        let etai := if !entering then self.mEtat else self.mEtai
        let etat := if !entering then self.mEtai else self.mEtat
        let wh := -Math.Normalize E (etai * wo + etat * wi)
        let ODotH := Math.Dot wo wh
        let IDotH := Math.Dot wi wh
        let sqrtDenom := etai * ODotH + etat * IDotH
        Math.NormalizeDivisions E (etai * wo + etat * wi) ++
          [(etat * etat * IDotH, sqrtDenom * sqrtDenom)]

/-- The division of `EvalInner` after line 157 (line 172 or lines 179-180), none when `D == 0`
returns first. -/
def EvalInner.tailDivisions (E : Externals K Geom) (self : RoughDielectric K)
    (wo wi : Vector3 K) (diffGeom : Geom) (L : EvalLocals K) : List (K × K) :=
  let wh := EvalInner.orient E L
  let roughness := E.GetValue self.mRoughness diffGeom
  let roughness := Math.Clamp roughness (1 / 50) 1
  let sampleRough := roughness * roughness
  let D := E.GGX_D wh sampleRough
  if D = 0 then []
  else
    let F := E.FresnelDielectric (Math.Dot wo wh) self.mEtai self.mEtat
    let G := E.GGX_G wo wi wh sampleRough
    if L.reflect then
      [(F * D * G, 4 * BSDFCoordinate.CosTheta wi * BSDFCoordinate.CosTheta wo)]
    else
      let ODotH := Math.Dot wo wh
      let IDotH := Math.Dot wi wh
      let sqrtDenom := L.etai * ODotH + L.etat * IDotH
      [((1 - F) * D * G * L.etat * L.etat * ODotH * IDotH,
        sqrtDenom * sqrtDenom * L.ODotN * L.IDotN)]

/-- The divisions of `EvalInner` (lines 147, 154, 172, 179-180) on the path it takes. -/
def EvalInner.divisions (E : Externals K Geom) (self : RoughDielectric K) (wo wi : Vector3 K)
    (diffGeom : Geom) (types : Nat) : List (K × K) :=
  let ODotN := BSDFCoordinate.CosTheta wo
  let IDotN := BSDFCoordinate.CosTheta wi
  let fac := ODotN * IDotN
  if fac = 0 then []
  else
    let reflect : Bool := decide (fac > 0)
    let entering : Bool := decide (ODotN > 0)
    let etai := if !entering then self.mEtat else self.mEtai
    let etat := if !entering then self.mEtai else self.mEtat
    if reflect then
      if ReflectScatter E &&& types ≠ ReflectScatter E then []
      else
        let wh := wo + wi
        if wh = Vector3.ZERO then []
        else
          Math.NormalizeDivisions E wh ++ EvalInner.tailDivisions E self wo wi diffGeom
            ⟨ODotN, IDotN, reflect, etai, etat, Math.Normalize E wh⟩
    else
      if RefractScatter E &&& types ≠ RefractScatter E then []
      else
        Math.NormalizeDivisions E (etai * wo + etat * wi) ++
          EvalInner.tailDivisions E self wo wi diffGeom
            ⟨ODotN, IDotN, reflect, etai, etat, -Math.Normalize E (etai * wo + etat * wi)⟩

end Code

/-! ## The parameter surface (lines 210-258) -/

/-- Modelled from the spec: the type tag of a `Parameter` (declared in `BSDF.h`, which is not
part of this header).  The header names `None`, `Float` and `TextureMap`; every other tag is
`Other`. -/
inductive ParameterType where
  | None
  | Float
  | TextureMap
  | Other (tag : Nat)
deriving DecidableEq

/-- Modelled from the spec: a named parameter entry of shape
`{type, value, min, max, texturePath}` (section 6); the declaration is in `BSDF.h`. -/
structure Parameter (K : Type) where
  type : ParameterType
  Value : K
  Min : K
  Max : K
  TexPath : String

/-- What the parameter methods take from the base class and from the texture classes.  The
base class sees only its own part of the state, here `mpTexture`: the members `mRoughness`,
`mEtai`, `mEtat` are private to `RoughDielectric`. -/
structure BSDFBase (K : Type) where
  /-- The base method `BSDF::GetParameter(name)`. -/
  GetParameter : Texture2D (Color K) → String → Parameter K
  /-- The base method `BSDF::SetParameter(name, param)`, as its effect on the base state. -/
  SetParameter : Texture2D (Color K) → String → Parameter K → Texture2D (Color K)
  /-- The value the argument-free `GetValue()` of an image texture returns. -/
  ImageValue : String → K

namespace Texture2D

variable {K : Type}

/-- The method `IsConstant()`: true for a `ConstantTexture2D` only. -/
def IsConstant (t : Texture2D K) : Bool :=
  match t with
  | .constant _ => true
  | .image _ => false

/-- The method `SetValue(v)` of a `ConstantTexture2D`; the header calls it on constant
textures only, other textures are left as they are. -/
def SetValue (t : Texture2D K) (v : K) : Texture2D K :=
  match t with
  | .constant _ => .constant v
  | .image path => .image path

/-- The argument-free method `GetValue()`: the stored value of a constant texture. -/
def GetValue (B : BSDFBase K) (t : Texture2D K) : K :=
  match t with
  | .constant v => v
  | .image path => B.ImageValue path

end Texture2D

section Parameters

variable {K : Type} [LinearOrderedField K]

/-- The method `RoughDielectric::GetParameter` (lines 210-236). -/
def GetParameter (B : BSDFBase K) (self : RoughDielectric K) (name : String) : Parameter K :=
  let ret := B.GetParameter self.mpTexture name
  if ret.type ≠ ParameterType.None then ret
  else if name = "Roughness" then
    { ret with
      type := ParameterType.Float
      Value := self.mRoughness.GetValue B
      Min := 1 / 100
      Max := 1 }
  else if name = "IOR" then
    { ret with
      type := ParameterType.Float
      Value := self.mEtat
      Min := 1 + 1 / 10000
      Max := 9 / 5 }
  else ret

/-- The method `RoughDielectric::SetParameter` (lines 238-258), as a state transformer.
`new ImageTexture<float, float>(param.TexPath, 1.0f)` is the texture `image param.TexPath`. -/
def SetParameter (B : BSDFBase K) (self : RoughDielectric K) (name : String)
    (param : Parameter K) : RoughDielectric K :=
  let self := { self with mpTexture := B.SetParameter self.mpTexture name param }
  if name = "Roughness" then
    if param.type = ParameterType.Float then
      if self.mRoughness.IsConstant then
        { self with mRoughness := self.mRoughness.SetValue param.Value }
      else
        { self with mRoughness := Texture2D.constant param.Value }
    else if param.type = ParameterType.TextureMap then
      { self with mRoughness := Texture2D.image param.TexPath }
    else self
  else if name = "IOR" then
    { self with mEtat := param.Value }
  else self

end Parameters

/-! ## The formulas of the specification

These definitions follow the words of the specification (section 4.3), not the code; the
theorems below compare the code with them. -/

namespace Spec

section

variable {K Geom : Type} [LinearOrderedField K]

open BSDFCoordinate

/-- Step 6: the roughness clamped to `[0.02, 1.0]` and squared. -/
def alpha (r : K) : K := (Math.Clamp r (1 / 50) 1) ^ 2

/-- Step 5, last sentence: a half-vector re-oriented to the frame normal. -/
def reorient (E : Externals K Geom) (wh : Vector3 K) : Vector3 K :=
  E.Sign (CosTheta wh) * wh

/-- Step 4: the incident index as seen from `wo`, swapped when `wo` is not entering. -/
def etaI (self : RoughDielectric K) (wo : Vector3 K) : K :=
  if 0 < CosTheta wo then self.mEtai else self.mEtat

/-- Step 4: the transmitted index as seen from `wo`, swapped when `wo` is not entering. -/
def etaT (self : RoughDielectric K) (wo : Vector3 K) : K :=
  if 0 < CosTheta wo then self.mEtat else self.mEtai

/-- Step 5: the half-vector of a reflection pair, `normalize(wo + wi)`, re-oriented. -/
def whReflect (E : Externals K Geom) (wo wi : Vector3 K) : Vector3 K :=
  reorient E (Math.Normalize E (wo + wi))

/-- Step 5: the half-vector of a refraction pair, `-normalize(etaI wo + etaT wi)`,
re-oriented. -/
def whRefract (E : Externals K Geom) (self : RoughDielectric K) (wo wi : Vector3 K) :
    Vector3 K :=
  reorient E (-Math.Normalize E (etaI self wo * wo + etaT self wo * wi))

/-- Step 8: the Fresnel term at `dot(wo, wh)` with the unswapped base pair. -/
def fresnel (E : Externals K Geom) (self : RoughDielectric K) (wo wh : Vector3 K) : K :=
  E.FresnelDielectric (Math.Dot wo wh) self.mEtai self.mEtat

/-- Step 10: the scalar reflection value `|F D G / (4 cosI cosO)|`. -/
def reflectionValue (E : Externals K Geom) (self : RoughDielectric K) (wo wi : Vector3 K)
    (g : Geom) : K :=
  let wh := whReflect E wo wi
  let a := alpha (E.GetValue self.mRoughness g)
  let D := E.GGX_D wh a
  let G := E.GGX_G wo wi wh a
  let F := fresnel E self wo wh
  |F * D * G / (4 * CosTheta wi * CosTheta wo)|

/-- Step 11: the scalar refraction value
`|(1 - F) D G etaT^2 cosOH cosIH / ((etaI cosOH + etaT cosIH)^2 cosI cosO)|`. -/
def refractionValue (E : Externals K Geom) (self : RoughDielectric K) (wo wi : Vector3 K)
    (g : Geom) : K :=
  let wh := whRefract E self wo wi
  let a := alpha (E.GetValue self.mRoughness g)
  let D := E.GGX_D wh a
  let G := E.GGX_G wo wi wh a
  let F := fresnel E self wo wh
  let cosOH := Math.Dot wo wh
  let cosIH := Math.Dot wi wh
  |(1 - F) * D * G * etaT self wo ^ 2 * cosOH * cosIH /
    ((etaI self wo * cosOH + etaT self wo * cosIH) ^ 2 * CosTheta wi * CosTheta wo)|

/-- The density of the half-vector seen from `wo` flipped to the upper hemisphere,
`whProb = PdfVisibleNormal(sign(cosO) wo, wh, alpha)`, scaled by the lobe weight `weight`
when both lobes are requested (`both`). -/
def whProb (E : Externals K Geom) (self : RoughDielectric K) (wo wh : Vector3 K) (g : Geom)
    (both : Bool) (weight : K) : K :=
  let p := E.GGX_Pdf_VisibleNormal (E.Sign (CosTheta wo) * wo) wh
    (alpha (E.GetValue self.mRoughness g))
  if both then p * weight else p

/-- Density of a reflection pair: `|whProb / (4 dot(wi, wh))|`, the re-oriented half-vector
in both factors, the weight being `F`. -/
def densityReflect (E : Externals K Geom) (self : RoughDielectric K) (wo wi : Vector3 K)
    (g : Geom) (both : Bool) : K :=
  let wh := whReflect E wo wi
  |whProb E self wo wh g both (fresnel E self wo wh) * (1 / (4 * Math.Dot wi wh))|

/-- Density of a refraction pair: `|whProb etaT^2 cosIH / (etaI cosOH + etaT cosIH)^2|`, the
re-oriented half-vector in both factors, the weight being `1 - F`. -/
def densityRefract (E : Externals K Geom) (self : RoughDielectric K) (wo wi : Vector3 K)
    (g : Geom) (both : Bool) : K :=
  let wh := whRefract E self wo wi
  let cosOH := Math.Dot wo wh
  let cosIH := Math.Dot wi wh
  |whProb E self wo wh g both (1 - fresnel E self wo wh) *
    (etaT self wo ^ 2 * cosIH / (etaI self wo * cosOH + etaT self wo * cosIH) ^ 2)|

/-- Steps 7-11 for a given re-oriented half-vector `wh` and a given `alpha`: `D` and `G` are
taken at `alpha`, `D == 0` gives `0`, otherwise the reflection resp. refraction value. -/
def valueAt (E : Externals K Geom) (self : RoughDielectric K) (wo wi wh : Vector3 K)
    (reflect : Bool) (a : K) : K :=
  let D := E.GGX_D wh a
  if D = 0 then 0
  else
    let G := E.GGX_G wo wi wh a
    let F := fresnel E self wo wh
    if reflect then |F * D * G / (4 * CosTheta wi * CosTheta wo)|
    else
      let cosOH := Math.Dot wo wh
      let cosIH := Math.Dot wi wh
      |(1 - F) * D * G * etaT self wo ^ 2 * cosOH * cosIH /
        ((etaI self wo * cosOH + etaT self wo * cosIH) ^ 2 * CosTheta wi * CosTheta wo)|

/-- The density `|whProb * dwh/dwi|` for a given re-oriented half-vector `wh`, a given
Jacobian and a given `alpha`: `PdfVisibleNormal` is taken at `alpha` and weighted by `F`
resp. `1 - F` when both lobes are requested. -/
def densityAt (E : Externals K Geom) (self : RoughDielectric K) (wo wh : Vector3 K)
    (both reflect : Bool) (dwh_dwi a : K) : K :=
  let p := E.GGX_Pdf_VisibleNormal (E.Sign (CosTheta wo) * wo) wh a
  let p := if both then p * (if reflect then fresnel E self wo wh
    else 1 - fresnel E self wo wh) else p
  |p * dwh_dwi|

/-- The vector `etaI wo + etaT wi` that the refraction half-vector normalises. -/
def refractSum (self : RoughDielectric K) (wo wi : Vector3 K) : Vector3 K :=
  etaI self wo * wo + etaT self wo * wi

/-- The term `etaI dot(wo, wh) + etaT dot(wi, wh)` whose square divides in the refraction
formulas. -/
def sqrtDenom (self : RoughDielectric K) (wo wi wh : Vector3 K) : K :=
  etaI self wo * Math.Dot wo wh + etaT self wo * Math.Dot wi wh

end

end Spec

/-- The externals `E` with a roughness source that returns `r` everywhere. -/
def Externals.withRoughness {K Geom : Type} (E : Externals K Geom) (r : K) :
    Externals K Geom :=
  { E with GetValue := fun _ _ => r }

/-! ## A concrete instance over `ℚ` -/

namespace Sample

/-- Externals over `ℚ` on which the definitions can be run: the square root is exact on the
squares met in the examples, `Sign` is the three-valued sign, the flags are the bits
`1`, `2`, `8`, and the GGX and Fresnel terms are simple rational stand-ins. -/
def E : Externals ℚ Unit where
  Sqrt := fun q =>
    if q = 0 then 0 else if q = 64 / 25 then 8 / 5 else if q = 1 / 4 then 1 / 2 else 1
  Sign := fun q => if 0 < q then 1 else if q < 0 then -1 else 0
  BSDF_REFLECTION := 1
  BSDF_TRANSMISSION := 2
  BSDF_GLOSSY := 8
  GGX_D := fun wh a => if wh.z ≤ 0 then 0 else a * wh.z
  GGX_G := fun wo wi _ a => 1 / ((1 + a * |wo.z|) * (1 + a * |wi.z|))
  GGX_Pdf_VisibleNormal := fun wo wh a => a * wh.z * max 0 (Math.Dot wo wh)
  FresnelDielectric := fun _ etai etat => ((etat - etai) / (etat + etai)) ^ 2
  GetValue := fun t _ => match t with
    | .constant v => v
    | .image _ => 1 / 2
  GetValueColor := fun t _ => match t with
    | .constant c => c
    | .image _ => ⟨1, 1, 1⟩
  WorldToLocal := fun _ v => v

/-- A base class that defines no parameter of its own and keeps no state. -/
def B : BSDFBase ℚ where
  GetParameter := fun _ _ => ⟨ParameterType.None, 0, 0, 0, ""⟩
  SetParameter := fun t _ _ => t
  ImageValue := fun _ => 1

/-- A `Float` parameter entry with the given value. -/
def floatParam (v : ℚ) : Parameter ℚ := ⟨ParameterType.Float, v, 0, 0, ""⟩

/-- A parameter entry of a type the header does not handle. -/
def otherParam (v : ℚ) : Parameter ℚ := ⟨ParameterType.Other 0, v, 0, 0, ""⟩

/-- The default material: white, roughness `0.06`, indices `1.0` and `1.5`. -/
def glass : RoughDielectric ℚ :=
  ⟨.constant ⟨1, 1, 1⟩, .constant (3 / 50), 1, 3 / 2⟩

/-- An index-matched material: white, roughness `0.06`, both indices `1.0`
(`RoughDielectric(Color::WHITE, 0.06f, 1.0f, 1.0f)`). -/
def matched : RoughDielectric ℚ :=
  ⟨.constant ⟨1, 1, 1⟩, .constant (3 / 50), 1, 1⟩

/-- A unit direction above the surface. -/
def up1 : Vector3 ℚ := ⟨3 / 5, 0, 4 / 5⟩

/-- The mirror image of `up1` about the frame normal. -/
def up2 : Vector3 ℚ := ⟨-3 / 5, 0, 4 / 5⟩

/-- A unit direction below the surface. -/
def down1 : Vector3 ℚ := ⟨0, 0, -1⟩

/-- A unit direction below the surface, the opposite of `up1`. -/
def low1 : Vector3 ℚ := ⟨-3 / 5, 0, -4 / 5⟩

/-- A unit direction below the surface, the opposite of `up2`. -/
def low2 : Vector3 ℚ := ⟨3 / 5, 0, -4 / 5⟩

/-- The frame normal. -/
def normal : Vector3 ℚ := ⟨0, 0, 1⟩

/-- A unit direction in the tangent plane. -/
def tangent : Vector3 ℚ := ⟨1, 0, 0⟩

end Sample

/-! ## Auxiliary facts -/

section Lemmas

variable {K Geom : Type} [LinearOrderedField K]

/-- A mask contains the union of two flag sets exactly when it contains each of them. -/
theorem land_lor_eq_iff (t a b : Nat) :
    t &&& (a ||| b) = a ||| b ↔ (t &&& a = a ∧ t &&& b = b) := by
  constructor
  · intro h
    have key : ∀ i, (t.testBit i && (a.testBit i || b.testBit i))
        = (a.testBit i || b.testBit i) := by
      intro i
      have := congrArg (fun n => Nat.testBit n i) h
      simpa [Nat.testBit_land, Nat.testBit_lor] using this
    constructor <;> apply Nat.eq_of_testBit_eq <;> intro i <;> have hi := key i <;>
      rw [Nat.testBit_land] <;>
      cases ht : t.testBit i <;> cases ha : a.testBit i <;> cases hb : b.testBit i <;>
      simp_all
  · rintro ⟨ha, hb⟩
    rw [Nat.and_or_distrib_left, ha, hb]

/-- The components of a sum. -/
theorem Vector3.add_def (a b : Vector3 K) :
    a + b = ⟨a.x + b.x, a.y + b.y, a.z + b.z⟩ := rfl

/-- The components of an opposite. -/
theorem Vector3.neg_def (a : Vector3 K) : -a = ⟨-a.x, -a.y, -a.z⟩ := rfl

/-- The components of a scalar multiple. -/
theorem Vector3.smul_def (s : K) (a : Vector3 K) :
    s * a = (⟨s * a.x, s * a.y, s * a.z⟩ : Vector3 K) := rfl

/-- Vector addition commutes. -/
theorem Vector3.add_comm_vec (a b : Vector3 K) : a + b = b + a := by
  show Vector3.add a b = Vector3.add b a
  simp [Vector3.add, add_comm]

/-- Two numbers with a positive product do not cancel. -/
theorem add_ne_zero_of_mul_pos {a b : K} (h : 0 < a * b) : a + b ≠ 0 := by
  intro h0
  have hb : b = -a := by linarith
  rw [hb] at h
  nlinarith [mul_self_nonneg a]

/-- The sum of a reflection pair is not the zero vector. -/
theorem sum_ne_ZERO {wo wi : Vector3 K}
    (h : 0 < BSDFCoordinate.CosTheta wo * BSDFCoordinate.CosTheta wi) :
    wo + wi ≠ Vector3.ZERO := by
  intro h0
  have hz : (wo + wi).z = 0 := by rw [h0]; rfl
  exact add_ne_zero_of_mul_pos h hz

/-- For unit directions the two members of a reflection pair make the same angle with any
multiple of their normalised sum. -/
theorem dot_half_symm (E : Externals K Geom) (c : K) {wo wi : Vector3 K}
    (hwo : Math.Dot wo wo = 1) (hwi : Math.Dot wi wi = 1) :
    Math.Dot wo (c * Math.Normalize E (wo + wi)) =
      Math.Dot wi (c * Math.Normalize E (wo + wi)) := by
  show Math.Dot wo (Vector3.scale c ((Vector3.add wo wi).divScalar _)) =
    Math.Dot wi (Vector3.scale c ((Vector3.add wo wi).divScalar _))
  simp only [Math.Dot, Vector3.scale, Vector3.divScalar, Vector3.add, div_eq_mul_inv] at *
  linear_combination (c * (Math.Length E (Vector3.add wo wi))⁻¹) * (hwo - hwi)

/-- The dot product is linear in a scalar factor of its second argument. -/
theorem dot_smul (a b : Vector3 K) (s : K) : Math.Dot a (s * b) = s * Math.Dot a b := by
  rw [Vector3.smul_def]
  simp only [Math.Dot]
  ring

/-- A sign that is `1` on positive and `-1` on negative numbers is `1` or `-1` away from
zero. -/
theorem sign_cases (E : Externals K Geom) (hpos : ∀ x, 0 < x → E.Sign x = 1)
    (hneg : ∀ x, x < 0 → E.Sign x = -1) {c : K} (hc : c ≠ 0) :
    E.Sign c = 1 ∨ E.Sign c = -1 := by
  rcases lt_or_gt_of_ne hc with h | h
  · exact Or.inr (hneg c h)
  · exact Or.inl (hpos c h)

/-- The clamped roughness lies in `[0.02, 1]`. -/
theorem clamp_bounds (r : K) :
    1 / 50 ≤ Math.Clamp r (1 / 50) 1 ∧ Math.Clamp r (1 / 50) 1 ≤ 1 := by
  unfold Math.Clamp
  constructor
  · exact le_min (le_max_right _ _) (by norm_num)
  · exact min_le_right _ _

/-- The squared clamped roughness lies in `[0.0004, 1]`. -/
theorem clamp_sq_bounds (r : K) :
    1 / 2500 ≤ Math.Clamp r (1 / 50) 1 * Math.Clamp r (1 / 50) 1 ∧
      Math.Clamp r (1 / 50) 1 * Math.Clamp r (1 / 50) 1 ≤ 1 := by
  obtain ⟨h1, h2⟩ := clamp_bounds r
  constructor <;> nlinarith

/-- The heads of `PdfInner` and `EvalInner` agree on the half-vector, before and after
re-orientation. -/
theorem heads_agree (E : Externals K Geom) (self : RoughDielectric K)
    (wo wi : Vector3 K) (types : Nat) :
    (PdfInner.head E self wo wi types).map (fun L => (L.wh, PdfInner.orient E L))
      = (EvalInner.head E self wo wi types).map (fun L => (L.wh, EvalInner.orient E L)) := by
  have hR : (ReflectScatter E &&& types = ReflectScatter E) ↔
      (types &&& ReflectScatter E = ReflectScatter E) := by rw [Nat.land_comm]
  have hT : (RefractScatter E &&& types = RefractScatter E) ↔
      (types &&& RefractScatter E = RefractScatter E) := by rw [Nat.land_comm]
  by_cases h0 : BSDFCoordinate.CosTheta wo * BSDFCoordinate.CosTheta wi = 0
  · simp [PdfInner.head, EvalInner.head, h0]
  · by_cases hpos : 0 < BSDFCoordinate.CosTheta wo * BSDFCoordinate.CosTheta wi
    · have hz := sum_ne_ZERO hpos
      by_cases hm : types &&& ReflectScatter E = ReflectScatter E
      · simp [PdfInner.head, EvalInner.head, PdfInner.orient, EvalInner.orient, h0, hpos,
          hz, hm, hR]
      · simp [PdfInner.head, EvalInner.head, h0, hpos, hm, hR]
    · by_cases hm : types &&& RefractScatter E = RefractScatter E
      · simp [PdfInner.head, EvalInner.head, PdfInner.orient, EvalInner.orient, h0, hpos,
          hm, hT]
      · simp [PdfInner.head, EvalInner.head, h0, hpos, hm, hT]

/-- A vector other than `ZERO` has positive squared length. -/
theorem dot_self_pos {v : Vector3 K} (h : v ≠ Vector3.ZERO) : 0 < Math.Dot v v := by
  by_contra hn
  apply h
  have h0 : v.x * v.x + v.y * v.y + v.z * v.z ≤ 0 := not_lt.mp hn
  have hx : v.x = 0 := by
    nlinarith [mul_self_nonneg v.x, mul_self_nonneg v.y, mul_self_nonneg v.z]
  have hy : v.y = 0 := by
    nlinarith [mul_self_nonneg v.x, mul_self_nonneg v.y, mul_self_nonneg v.z]
  have hz : v.z = 0 := by
    nlinarith [mul_self_nonneg v.x, mul_self_nonneg v.y, mul_self_nonneg v.z]
  cases v
  simp only [Vector3.ZERO] at *
  simp_all

/-- With `L` the length of `v = a wo + b wi`, the term `a dot(wo, wh) + b dot(wi, wh)` at
`wh = -v / L` is `-L`. -/
theorem sqrtDenom_eq (a b : K) (wo wi : Vector3 K) (L : K)
    (hL : L * L = Math.Dot (a * wo + b * wi) (a * wo + b * wi)) (hL0 : L ≠ 0) :
    a * Math.Dot wo (-((a * wo + b * wi).divScalar L)) +
      b * Math.Dot wi (-((a * wo + b * wi).divScalar L)) = -L := by
  simp only [Vector3.smul_def, Vector3.add_def, Vector3.neg_def, Vector3.divScalar,
    Math.Dot] at *
  field_simp
  linear_combination hL

/-- For unit directions and positive indices the squared length of `a wo + b wi` is at
least `(a - b)^2`. -/
theorem refract_len_bound (a b : K) (wo wi : Vector3 K) (ha : 0 < a) (hb : 0 < b)
    (hwo : Math.Dot wo wo = 1) (hwi : Math.Dot wi wi = 1) :
    (a - b) ^ 2 ≤ Math.Dot (a * wo + b * wi) (a * wo + b * wi) := by
  simp only [Vector3.smul_def, Vector3.add_def, Math.Dot] at *
  have hc : 0 ≤ (wo.x + wi.x) * (wo.x + wi.x) + (wo.y + wi.y) * (wo.y + wi.y) +
      (wo.z + wi.z) * (wo.z + wi.z) :=
    add_nonneg (add_nonneg (mul_self_nonneg _) (mul_self_nonneg _)) (mul_self_nonneg _)
  have hab : 0 < a * b := mul_pos ha hb
  have key : (a * wo.x + b * wi.x) * (a * wo.x + b * wi.x) +
      (a * wo.y + b * wi.y) * (a * wo.y + b * wi.y) +
      (a * wo.z + b * wi.z) * (a * wo.z + b * wi.z) = (a - b) ^ 2 + a * b *
        ((wo.x + wi.x) * (wo.x + wi.x) + (wo.y + wi.y) * (wo.y + wi.y) +
          (wo.z + wi.z) * (wo.z + wi.z)) := by
    linear_combination (a ^ 2 - a * b) * hwo + (b ^ 2 - a * b) * hwi
  rw [key]
  linarith [mul_nonneg hab.le hc]

/-- The index pair and the cosines that `EvalInner` holds at line 157. -/
theorem evalHead_locals (E : Externals K Geom) (self : RoughDielectric K)
    (wo wi : Vector3 K) (types : Nat) (L : EvalLocals K)
    (h : EvalInner.head E self wo wi types = some L) :
    L.etai = Spec.etaI self wo ∧ L.etat = Spec.etaT self wo ∧
      L.ODotN = BSDFCoordinate.CosTheta wo ∧ L.IDotN = BSDFCoordinate.CosTheta wi := by
  by_cases he : 0 < BSDFCoordinate.CosTheta wo
  · simp only [EvalInner.head, he, decide_True, Bool.not_true, Bool.false_eq_true,
      if_false, gt_iff_lt] at h
    split_ifs at h <;> simp only [Option.some.injEq] at h <;> subst h <;>
      simp [Spec.etaI, Spec.etaT, he]
  · simp only [EvalInner.head, he, decide_False, Bool.not_false, if_true, gt_iff_lt] at h
    split_ifs at h <;> simp only [Option.some.injEq] at h <;> subst h <;>
      simp [Spec.etaI, Spec.etaT, he]

end Lemmas

/-! ## The claims -/

section Claims

variable {K Geom : Type} [LinearOrderedField K]

open BSDFCoordinate

/-- C1. Reciprocity of the reflection lobe.  For unit local directions `wo`, `wi` with
`CosTheta wo * CosTheta wi > 0`, every roughness source, index pair, geometry and request
mask, and a shadow-masking term that is symmetric in its two directions,
`EvalInner wo wi = EvalInner wi wo`; hence `Eval`, which multiplies by the same base colour,
agrees too for world directions that the frame maps to `wo` and `wi`. -/
theorem C1_reflection_reciprocity (E : Externals K Geom) (self : RoughDielectric K)
    (wo wi : Vector3 K) (g : Geom) (types : Nat)
    (hwo : Math.Dot wo wo = 1) (hwi : Math.Dot wi wi = 1)
    (hfac : 0 < CosTheta wo * CosTheta wi)
    (hG : ∀ a b h α, E.GGX_G a b h α = E.GGX_G b a h α) :
    EvalInner E self wo wi g types = EvalInner E self wi wo g types ∧
      ∀ vOut vIn, E.WorldToLocal g vOut = wo → E.WorldToLocal g vIn = wi →
        Eval E self vOut vIn g types = Eval E self vIn vOut g types := by
  have hfac2 : 0 < CosTheta wi * CosTheta wo := by rwa [mul_comm]
  have key : EvalInner E self wo wi g types = EvalInner E self wi wo g types := by
    have hz := sum_ne_ZERO hfac
    have hd := dot_half_symm E (E.Sign (CosTheta (Math.Normalize E (wo + wi)))) hwo hwi
    have hden : 4 * CosTheta wo * CosTheta wi = 4 * CosTheta wi * CosTheta wo := by ring
    by_cases hm : ReflectScatter E &&& types = ReflectScatter E
    · simp only [EvalInner, EvalInner.head, EvalInner.tail, EvalInner.orient,
        Vector3.add_comm_vec wi wo, hfac.ne.symm, hfac2.ne.symm, hfac, hfac2, hm, hz, hd,
        hG wi wo, hden, if_false, if_true, decide_True, ne_eq, not_true_eq_false,
        gt_iff_lt]
    · simp [EvalInner, EvalInner.head, hfac.ne.symm, hfac2.ne.symm, hfac, hfac2, hm]
  refine ⟨key, ?_⟩
  intro vOut vIn h1 h2
  simp only [Eval, h1, h2, key]

/-- C1 at a concrete input: a direction and its mirror image about the frame normal. -/
theorem C1_reflection_reciprocity_witness :
    EvalInner Sample.E Sample.glass Sample.up1 Sample.up2 () 11 =
      EvalInner Sample.E Sample.glass Sample.up2 Sample.up1 () 11 :=
  (C1_reflection_reciprocity Sample.E Sample.glass Sample.up1 Sample.up2 () 11
    (by norm_num [Math.Dot, Sample.up1])
    (by norm_num [Math.Dot, Sample.up2])
    (by norm_num [CosTheta, Sample.up1, Sample.up2])
    (by intro a b h α; simp only [Sample.E]; ring)).1

/-- C2. A pair whose frame-normal cosines have product exactly zero is degenerate: both
`EvalInner` and `PdfInner` leave through their first early return (the head yields no state,
so neither the distribution, the Fresnel term nor a division is reached) and return `0`,
whatever the externals, the material, the geometry and the request mask are. -/
theorem C2_degenerate_pair_zero (E : Externals K Geom) (self : RoughDielectric K)
    (wo wi : Vector3 K) (g : Geom) (types : Nat)
    (h : CosTheta wo * CosTheta wi = 0) :
    EvalInner.head E self wo wi types = none ∧ PdfInner.head E self wo wi types = none ∧
      EvalInner E self wo wi g types = 0 ∧ PdfInner E self wo wi g types = 0 := by
  have h1 : EvalInner.head E self wo wi types = none := by
    simp [EvalInner.head, h]
  have h2 : PdfInner.head E self wo wi types = none := by
    simp [PdfInner.head, h]
  refine ⟨h1, h2, ?_, ?_⟩
  · simp [EvalInner, h1]
  · simp [PdfInner, h2]

/-- C2 at a concrete input: `wo` in the tangent plane, `wi` along the normal. -/
theorem C2_degenerate_pair_zero_witness :
    CosTheta Sample.tangent * CosTheta Sample.normal = 0 ∧
      EvalInner Sample.E Sample.glass Sample.tangent Sample.normal () 11 = 0 ∧
      PdfInner Sample.E Sample.glass Sample.tangent Sample.normal () 11 = 0 :=
  ⟨by simp [CosTheta, Sample.tangent],
    (C2_degenerate_pair_zero Sample.E Sample.glass Sample.tangent Sample.normal () 11
      (by simp [CosTheta, Sample.tangent])).2.2.1,
    (C2_degenerate_pair_zero Sample.E Sample.glass Sample.tangent Sample.normal () 11
      (by simp [CosTheta, Sample.tangent])).2.2.2⟩

/-- C3. An excluded lobe contributes zero.  For a reflection pair (cosine product `> 0`) and a
mask that does not contain both `BSDF_REFLECTION` and `BSDF_GLOSSY`, and for a refraction pair
(cosine product `< 0`) and a mask that does not contain both `BSDF_TRANSMISSION` and
`BSDF_GLOSSY`, `EvalInner` and `PdfInner` return `0`. -/
theorem C3_excluded_lobe_zero (E : Externals K Geom) (self : RoughDielectric K)
    (wo wi : Vector3 K) (g : Geom) (types : Nat)
    (h : (0 < CosTheta wo * CosTheta wi ∧
            ¬ (types &&& E.BSDF_REFLECTION = E.BSDF_REFLECTION ∧
               types &&& E.BSDF_GLOSSY = E.BSDF_GLOSSY)) ∨
         (CosTheta wo * CosTheta wi < 0 ∧
            ¬ (types &&& E.BSDF_TRANSMISSION = E.BSDF_TRANSMISSION ∧
               types &&& E.BSDF_GLOSSY = E.BSDF_GLOSSY))) :
    EvalInner E self wo wi g types = 0 ∧ PdfInner E self wo wi g types = 0 := by
  rcases h with ⟨hfac, hmask⟩ | ⟨hfac, hmask⟩
  · rw [← land_lor_eq_iff] at hmask
    have hmask2 : ¬ (ReflectScatter E &&& types = ReflectScatter E) := by
      rw [Nat.land_comm]; exact hmask
    have h1 : EvalInner.head E self wo wi types = none := by
      simp [EvalInner.head, hfac.ne.symm, hfac, hmask2]
    have h2 : PdfInner.head E self wo wi types = none := by
      have hm : ¬ (types &&& ReflectScatter E = ReflectScatter E) := hmask
      simp [PdfInner.head, hfac.ne.symm, hfac, hm]
    simp [EvalInner, PdfInner, h1, h2]
  · rw [← land_lor_eq_iff] at hmask
    have hmask2 : ¬ (RefractScatter E &&& types = RefractScatter E) := by
      rw [Nat.land_comm]; exact hmask
    have hn : ¬ (0 < CosTheta wo * CosTheta wi) := not_lt.mpr hfac.le
    have h1 : EvalInner.head E self wo wi types = none := by
      simp [EvalInner.head, hfac.ne, hn, hmask2]
    have h2 : PdfInner.head E self wo wi types = none := by
      have hm : ¬ (types &&& RefractScatter E = RefractScatter E) := hmask
      simp [PdfInner.head, hfac.ne, hn, hm]
    simp [EvalInner, PdfInner, h1, h2]

/-- C3 at a concrete input: a reflection pair asked for with the mask
`BSDF_TRANSMISSION | BSDF_GLOSSY`. -/
theorem C3_excluded_lobe_zero_witness :
    EvalInner Sample.E Sample.glass Sample.up1 Sample.up2 () 10 = 0 ∧
      PdfInner Sample.E Sample.glass Sample.up1 Sample.up2 () 10 = 0 :=
  C3_excluded_lobe_zero Sample.E Sample.glass Sample.up1 Sample.up2 () 10
    (Or.inl ⟨by norm_num [CosTheta, Sample.up1, Sample.up2],
      by simp [Sample.E]⟩)

/-- C4. Reflection value.  For a pair with cosine product `> 0` whose lobe is permitted by the
mask and for which `D(wh, alpha) ≠ 0`, `EvalInner` returns `|F D G / (4 cosI cosO)|` and `Eval`
returns the base colour times it, where `wh = normalize(wo + wi)` re-oriented,
`alpha = clamp(roughness, 0.02, 1)^2` and `F` is taken with the unswapped pair
`(mEtai, mEtat)`, whether or not `wo` is above the surface. -/
theorem C4_reflection_value (E : Externals K Geom) (self : RoughDielectric K)
    (wo wi : Vector3 K) (g : Geom) (types : Nat)
    (hfac : 0 < CosTheta wo * CosTheta wi)
    (hmask : types &&& E.BSDF_REFLECTION = E.BSDF_REFLECTION ∧
      types &&& E.BSDF_GLOSSY = E.BSDF_GLOSSY)
    (hD : E.GGX_D (Spec.whReflect E wo wi) (Spec.alpha (E.GetValue self.mRoughness g)) ≠ 0) :
    EvalInner E self wo wi g types = Spec.reflectionValue E self wo wi g ∧
      ∀ vOut vIn, E.WorldToLocal g vOut = wo → E.WorldToLocal g vIn = wi →
        Eval E self vOut vIn g types =
          E.GetValueColor self.mpTexture g * Spec.reflectionValue E self wo wi g := by
  have key : EvalInner E self wo wi g types = Spec.reflectionValue E self wo wi g := by
    rw [← land_lor_eq_iff, Nat.land_comm] at hmask
    have hm : ReflectScatter E &&& types = ReflectScatter E := hmask
    have hz := sum_ne_ZERO hfac
    simp only [Spec.whReflect, Spec.reorient, Spec.alpha, pow_two] at hD
    simp only [EvalInner, EvalInner.head, EvalInner.tail, EvalInner.orient,
      Spec.reflectionValue, Spec.whReflect, Spec.reorient, Spec.alpha, Spec.fresnel, Math.Abs,
      pow_two, hfac.ne.symm, hfac, hm, hz, hD, if_false, if_true, decide_True, ne_eq,
      not_true_eq_false, gt_iff_lt]
  refine ⟨key, ?_⟩
  intro vOut vIn h1 h2
  simp only [Eval, h1, h2, key]

/-- C4 at a concrete input: a reflection pair above the surface, all lobes requested. -/
theorem C4_reflection_value_witness :
    EvalInner Sample.E Sample.glass Sample.up1 Sample.up2 () 11 =
      Spec.reflectionValue Sample.E Sample.glass Sample.up1 Sample.up2 () :=
  (C4_reflection_value Sample.E Sample.glass Sample.up1 Sample.up2 () 11
    (by norm_num [CosTheta, Sample.up1, Sample.up2])
    ⟨by decide, by decide⟩
    (by norm_num [Spec.whReflect, Spec.reorient, Spec.alpha, Math.Normalize, Math.Length,
      Math.Dot, Math.Clamp, CosTheta, Sample.E, Sample.glass, Sample.up1, Sample.up2,
      Vector3.divScalar, Vector3.add_def, Vector3.smul_def])).1

/-- C5. Refraction value.  For a pair with cosine product `< 0` whose lobe is permitted by the
mask and for which `D(wh, alpha) ≠ 0`, `EvalInner` returns
`|(1 - F) D G etaT^2 cosOH cosIH / ((etaI cosOH + etaT cosIH)^2 cosI cosO)|` and `Eval` the
base colour times it, where `(etaI, etaT)` is `(mEtai, mEtat)` when `CosTheta wo > 0` and the
swapped pair otherwise, `wh = -normalize(etaI wo + etaT wi)` re-oriented, `F` uses the
unswapped pair, and no further factor is applied. -/
theorem C5_refraction_value (E : Externals K Geom) (self : RoughDielectric K)
    (wo wi : Vector3 K) (g : Geom) (types : Nat)
    (hfac : CosTheta wo * CosTheta wi < 0)
    (hmask : types &&& E.BSDF_TRANSMISSION = E.BSDF_TRANSMISSION ∧
      types &&& E.BSDF_GLOSSY = E.BSDF_GLOSSY)
    (hD : E.GGX_D (Spec.whRefract E self wo wi)
      (Spec.alpha (E.GetValue self.mRoughness g)) ≠ 0) :
    EvalInner E self wo wi g types = Spec.refractionValue E self wo wi g ∧
      ∀ vOut vIn, E.WorldToLocal g vOut = wo → E.WorldToLocal g vIn = wi →
        Eval E self vOut vIn g types =
          E.GetValueColor self.mpTexture g * Spec.refractionValue E self wo wi g := by
  have key : EvalInner E self wo wi g types = Spec.refractionValue E self wo wi g := by
    rw [← land_lor_eq_iff, Nat.land_comm] at hmask
    have hm : RefractScatter E &&& types = RefractScatter E := hmask
    have hn : ¬ (0 < CosTheta wo * CosTheta wi) := not_lt.mpr hfac.le
    by_cases he : 0 < CosTheta wo
    · simp only [Spec.whRefract, Spec.reorient, Spec.alpha, Spec.etaI, Spec.etaT, pow_two, he,
        if_true] at hD
      simp only [EvalInner, EvalInner.head, EvalInner.tail, EvalInner.orient,
        Spec.refractionValue, Spec.whRefract, Spec.reorient, Spec.alpha, Spec.fresnel,
        Spec.etaI, Spec.etaT, Math.Abs, pow_two, hfac.ne, hn, he, hm, hD, if_false, if_true,
        decide_True, decide_False, ne_eq, not_true_eq_false, gt_iff_lt, Bool.not_true,
        Bool.false_eq_true, mul_one]
      congr 1
      ring
    · simp only [Spec.whRefract, Spec.reorient, Spec.alpha, Spec.etaI, Spec.etaT, pow_two, he,
        if_false] at hD
      simp only [EvalInner, EvalInner.head, EvalInner.tail, EvalInner.orient,
        Spec.refractionValue, Spec.whRefract, Spec.reorient, Spec.alpha, Spec.fresnel,
        Spec.etaI, Spec.etaT, Math.Abs, pow_two, hfac.ne, hn, he, hm, hD, if_false, if_true,
        decide_True, decide_False, ne_eq, not_true_eq_false, gt_iff_lt, Bool.not_false,
        Bool.false_eq_true, mul_one]
      congr 1
      ring
  refine ⟨key, ?_⟩
  intro vOut vIn h1 h2
  simp only [Eval, h1, h2, key]

/-- C5 at a concrete input: `wo` along the normal, `wi` straight through the surface. -/
theorem C5_refraction_value_witness :
    EvalInner Sample.E Sample.glass Sample.normal Sample.down1 () 11 =
      Spec.refractionValue Sample.E Sample.glass Sample.normal Sample.down1 () :=
  (C5_refraction_value Sample.E Sample.glass Sample.normal Sample.down1 () 11
    (by norm_num [CosTheta, Sample.normal, Sample.down1])
    ⟨by decide, by decide⟩
    (by norm_num [Spec.whRefract, Spec.reorient, Spec.alpha, Spec.etaI, Spec.etaT,
      Math.Normalize, Math.Length, Math.Dot, Math.Clamp, CosTheta, Sample.E, Sample.glass,
      Sample.normal, Sample.down1, Vector3.divScalar, Vector3.add_def, Vector3.smul_def,
      Vector3.neg_def])).1

/-- C7. Lobe weighting in the density.  Let `tBoth` permit both lobes.  For a reflection pair
and a mask `tOne` permitting only the reflection lobe, `PdfInner` under `tBoth` is `|F|` times
`PdfInner` under `tOne`; for a refraction pair and a mask permitting only the refraction
lobe it is `|1 - F|` times it; `F` is the Fresnel term at `dot(wo, wh)` with the re-oriented
half-vector and the unswapped pair.  Under a mask that does not permit both lobes the result
does not depend on the Fresnel function at all. -/
theorem C7_lobe_weighting (E : Externals K Geom) (self : RoughDielectric K)
    (wo wi : Vector3 K) (g : Geom) (tBoth tOne : Nat)
    (hboth : tBoth &&& ReflectScatter E = ReflectScatter E ∧
      tBoth &&& RefractScatter E = RefractScatter E)
    (hone : ¬ (tOne &&& ReflectScatter E = ReflectScatter E ∧
      tOne &&& RefractScatter E = RefractScatter E)) :
    (0 < CosTheta wo * CosTheta wi → tOne &&& ReflectScatter E = ReflectScatter E →
        PdfInner E self wo wi g tBoth =
          |Spec.fresnel E self wo (Spec.whReflect E wo wi)| * PdfInner E self wo wi g tOne) ∧
      (CosTheta wo * CosTheta wi < 0 → tOne &&& RefractScatter E = RefractScatter E →
        PdfInner E self wo wi g tBoth =
          |1 - Spec.fresnel E self wo (Spec.whRefract E self wo wi)| *
            PdfInner E self wo wi g tOne) ∧
      ∀ F2 : K → K → K → K,
        PdfInner { E with FresnelDielectric := F2 } self wo wi g tOne =
          PdfInner E self wo wi g tOne := by
  obtain ⟨hbR, hbT⟩ := hboth
  refine ⟨?_, ?_, ?_⟩
  · intro hpos hoR
    have hoT : ¬ (tOne &&& RefractScatter E = RefractScatter E) := fun h => hone ⟨hoR, h⟩
    simp only [PdfInner, PdfInner.head, PdfInner.tail, PdfInner.orient, Spec.fresnel,
      Spec.whReflect, Spec.reorient, Math.Abs, hpos.ne.symm, hpos, hbR, hbT, hoR, hoT,
      if_false, if_true, decide_True, decide_False, gt_iff_lt, Bool.not_true,
      Bool.false_eq_true, Bool.and_true, Bool.and_false]
    rw [← abs_mul]
    congr 1
    ring
  · intro hneg hoT
    have hoR : ¬ (tOne &&& ReflectScatter E = ReflectScatter E) := fun h => hone ⟨h, hoT⟩
    have hn : ¬ (0 < CosTheta wo * CosTheta wi) := not_lt.mpr hneg.le
    by_cases he : 0 < CosTheta wo
    · simp only [PdfInner, PdfInner.head, PdfInner.tail, PdfInner.orient, Spec.fresnel,
        Spec.whRefract, Spec.reorient, Spec.etaI, Spec.etaT, Math.Abs, hneg.ne, hn, he, hbR,
        hbT, hoR, hoT, if_false, if_true, decide_True, decide_False, gt_iff_lt,
        Bool.not_true, Bool.not_false, Bool.false_eq_true, Bool.and_true, Bool.and_false,
        Bool.false_and]
      rw [← abs_mul]
      congr 1
      ring
    · simp only [PdfInner, PdfInner.head, PdfInner.tail, PdfInner.orient, Spec.fresnel,
        Spec.whRefract, Spec.reorient, Spec.etaI, Spec.etaT, Math.Abs, hneg.ne, hn, he, hbR,
        hbT, hoR, hoT, if_false, if_true, decide_True, decide_False, gt_iff_lt,
        Bool.not_true, Bool.not_false, Bool.false_eq_true, Bool.and_true, Bool.and_false,
        Bool.false_and]
      rw [← abs_mul]
      congr 1
      ring
  · intro F2
    have hRS : ReflectScatter { E with FresnelDielectric := F2 } = ReflectScatter E := rfl
    have hTS : RefractScatter { E with FresnelDielectric := F2 } = RefractScatter E := rfl
    simp only [PdfInner]
    cases hh : PdfInner.head E self wo wi tOne with
    | none =>
      have : PdfInner.head { E with FresnelDielectric := F2 } self wo wi tOne = none := hh
      rw [this]
    | some L =>
      have h2 : PdfInner.head { E with FresnelDielectric := F2 } self wo wi tOne = some L := hh
      rw [h2]
      have hL : (L.sampleReflect && L.sampleRefract) = false := by
        simp only [PdfInner.head] at hh
        split_ifs at hh <;> simp only [Option.some.injEq] at hh <;> subst hh <;>
          simp only [Bool.and_eq_false_imp, decide_eq_true_eq, decide_eq_false_iff_not] <;>
          exact fun h1 h2 => hone ⟨h1, h2⟩
      simp only [PdfInner.tail, hL, Bool.false_eq_true, if_false]
      rfl

/-- C7 at a concrete input: a reflection pair, all lobes against reflection only. -/
theorem C7_lobe_weighting_witness :
    PdfInner Sample.E Sample.glass Sample.up1 Sample.up2 () 11 =
      |Spec.fresnel Sample.E Sample.glass Sample.up1
          (Spec.whReflect Sample.E Sample.up1 Sample.up2)| *
        PdfInner Sample.E Sample.glass Sample.up1 Sample.up2 () 9 :=
  (C7_lobe_weighting Sample.E Sample.glass Sample.up1 Sample.up2 () 11 9
    ⟨by decide, by decide⟩ (by decide)).1
    (by norm_num [CosTheta, Sample.up1, Sample.up2]) (by decide)

/-- C8. Density formula.  With a `Sign` that is `1` on positive and `-1` on negative
numbers, for every pair that passes the gates and whose half-vector has a non-zero normal
component, `PdfInner` (which forms the Jacobian from the half-vector before re-orientation)
returns `|whProb * dwh/dwi|` with the re-oriented half-vector in both factors:
`dwh/dwi = 1 / (4 dot(wi, wh))` for reflection and
`etaT^2 dot(wi, wh) / (etaI dot(wo, wh) + etaT dot(wi, wh))^2` for refraction, `whProb` being
weighted by `F` resp. `1 - F` exactly when the mask permits both lobes. -/
theorem C8_density_formula (E : Externals K Geom) (self : RoughDielectric K)
    (wo wi : Vector3 K) (g : Geom) (types : Nat)
    (hpos : ∀ x, 0 < x → E.Sign x = 1) (hneg : ∀ x, x < 0 → E.Sign x = -1) :
    (0 < CosTheta wo * CosTheta wi → types &&& ReflectScatter E = ReflectScatter E →
        CosTheta (Math.Normalize E (wo + wi)) ≠ 0 →
        PdfInner E self wo wi g types = Spec.densityReflect E self wo wi g
          (decide (types &&& RefractScatter E = RefractScatter E))) ∧
      (CosTheta wo * CosTheta wi < 0 → types &&& RefractScatter E = RefractScatter E →
        CosTheta (-Math.Normalize E (Spec.etaI self wo * wo + Spec.etaT self wo * wi)) ≠ 0 →
        PdfInner E self wo wi g types = Spec.densityRefract E self wo wi g
          (decide (types &&& ReflectScatter E = ReflectScatter E))) := by
  have flip : ∀ p x y : K, (y = x ∨ y = -x) → |p * x| = |p * y| := by
    intro p x y h
    rcases h with h | h
    · rw [h]
    · rw [h, mul_neg, abs_neg]
  constructor
  · intro hfac hR hc
    have hs := sign_cases E hpos hneg hc
    simp only [PdfInner, PdfInner.head, PdfInner.tail, PdfInner.orient, Spec.densityReflect,
      Spec.whProb, Spec.whReflect, Spec.reorient, Spec.alpha, Spec.fresnel, Math.Abs, pow_two,
      hfac.ne.symm, hfac, hR, if_false, if_true, decide_True, gt_iff_lt, Bool.not_true,
      Bool.false_eq_true, Bool.true_and, dot_smul wi]
    apply flip
    rcases hs with h | h
    · left; rw [h, one_mul]
    · right; rw [h]; simp only [neg_mul, one_mul, mul_neg, one_div, inv_neg]
  · intro hfac hT hc
    have hn : ¬ (0 < CosTheta wo * CosTheta wi) := not_lt.mpr hfac.le
    by_cases he : 0 < CosTheta wo
    · simp only [Spec.etaI, Spec.etaT, he, if_true] at hc
      have hs := sign_cases E hpos hneg hc
      simp only [PdfInner, PdfInner.head, PdfInner.tail, PdfInner.orient,
        Spec.densityRefract, Spec.whProb, Spec.whRefract, Spec.reorient, Spec.alpha,
        Spec.fresnel, Spec.etaI, Spec.etaT, Math.Abs, pow_two, hfac.ne, hn, he, hT, if_false,
        if_true, decide_True, decide_False, gt_iff_lt, Bool.not_true, Bool.not_false,
        Bool.false_eq_true, Bool.and_true, dot_smul wi, dot_smul wo]
      apply flip
      rcases hs with h | h
      · left; rw [h]; simp only [one_mul]
      · right; rw [h]; simp only [neg_mul, one_mul, mul_neg]; ring
    · simp only [Spec.etaI, Spec.etaT, he, if_false] at hc
      have hs := sign_cases E hpos hneg hc
      simp only [PdfInner, PdfInner.head, PdfInner.tail, PdfInner.orient,
        Spec.densityRefract, Spec.whProb, Spec.whRefract, Spec.reorient, Spec.alpha,
        Spec.fresnel, Spec.etaI, Spec.etaT, Math.Abs, pow_two, hfac.ne, hn, he, hT, if_false,
        if_true, decide_True, decide_False, gt_iff_lt, Bool.not_true, Bool.not_false,
        Bool.false_eq_true, Bool.and_true, dot_smul wi, dot_smul wo]
      apply flip
      rcases hs with h | h
      · left; rw [h]; simp only [one_mul]
      · right; rw [h]; simp only [neg_mul, one_mul, mul_neg]; ring

/-- C8 at a concrete input: a reflection pair below the surface, whose half-vector is flipped
by the re-orientation. -/
theorem C8_density_formula_witness :
    PdfInner Sample.E Sample.glass Sample.low1 Sample.low2 () 11 =
      Spec.densityReflect Sample.E Sample.glass Sample.low1 Sample.low2 () true :=
  (C8_density_formula Sample.E Sample.glass Sample.low1 Sample.low2 () 11
    (by intro x hx; simp [Sample.E, hx])
    (by intro x hx; simp [Sample.E, hx, not_lt.mpr hx.le])).1
    (by norm_num [CosTheta, Sample.low1, Sample.low2]) (by decide)
    (by norm_num [Math.Normalize, Math.Length, Math.Dot, CosTheta, Sample.E, Sample.low1,
      Sample.low2, Vector3.divScalar, Vector3.add_def])

/-- C9. The roughness is clamped before use.  The value `alpha = clamp(r, 0.02, 1)^2` lies in
`[0.0004, 1]` and is not `0`.  When the roughness source returns `r`, `EvalInner` is the value
of steps 7-11 with `GGX_D` and `GGX_G` taken at exactly that `alpha`, and `PdfInner` is
`|whProb * dwh/dwi|` with `GGX_Pdf_VisibleNormal` taken at exactly that `alpha`, for the
half-vector each method holds after its gates (`0` when a gate returns).  Hence replacing
`GGX_D`, `GGX_G`, `GGX_Pdf_VisibleNormal` by functions that agree with them for `alpha` in
`[0.0004, 1]` changes neither result; the results for a roughness `r <= 0.02` are those for
`0.02`, and the results for `r >= 1` are those for `1`. -/
theorem C9_roughness_clamped (E : Externals K Geom) (self : RoughDielectric K)
    (wo wi : Vector3 K) (g : Geom) (types : Nat) (r : K) :
    (1 / 2500 ≤ Spec.alpha r ∧ Spec.alpha r ≤ 1 ∧ Spec.alpha r ≠ 0) ∧
      (E.GetValue self.mRoughness g = r →
        EvalInner E self wo wi g types =
            (EvalInner.head E self wo wi types).elim 0
              (fun L => Spec.valueAt E self wo wi (EvalInner.orient E L) L.reflect
                (Spec.alpha r)) ∧
          PdfInner E self wo wi g types =
            (PdfInner.head E self wo wi types).elim 0
              (fun L => Spec.densityAt E self wo (PdfInner.orient E L)
                (L.sampleReflect && L.sampleRefract) L.reflect L.dwh_dwi (Spec.alpha r))) ∧
      (∀ (D2 : Vector3 K → K → K) (G2 : Vector3 K → Vector3 K → Vector3 K → K → K)
          (P2 : Vector3 K → Vector3 K → K → K),
          (∀ wh a, 1 / 2500 ≤ a → a ≤ 1 → D2 wh a = E.GGX_D wh a) →
          (∀ u v wh a, 1 / 2500 ≤ a → a ≤ 1 → G2 u v wh a = E.GGX_G u v wh a) →
          (∀ u wh a, 1 / 2500 ≤ a → a ≤ 1 →
            P2 u wh a = E.GGX_Pdf_VisibleNormal u wh a) →
          EvalInner { E with GGX_D := D2, GGX_G := G2, GGX_Pdf_VisibleNormal := P2 }
              self wo wi g types = EvalInner E self wo wi g types ∧
            PdfInner { E with GGX_D := D2, GGX_G := G2, GGX_Pdf_VisibleNormal := P2 }
              self wo wi g types = PdfInner E self wo wi g types) ∧
      (r ≤ 1 / 50 →
        EvalInner (E.withRoughness r) self wo wi g types =
            EvalInner (E.withRoughness (1 / 50)) self wo wi g types ∧
          PdfInner (E.withRoughness r) self wo wi g types =
            PdfInner (E.withRoughness (1 / 50)) self wo wi g types) ∧
      (1 ≤ r →
        EvalInner (E.withRoughness r) self wo wi g types =
            EvalInner (E.withRoughness 1) self wo wi g types ∧
          PdfInner (E.withRoughness r) self wo wi g types =
            PdfInner (E.withRoughness 1) self wo wi g types) := by
  have hsame : ∀ r1 r2 : K, Math.Clamp r1 (1 / 50) 1 = Math.Clamp r2 (1 / 50) 1 →
      EvalInner (E.withRoughness r1) self wo wi g types =
          EvalInner (E.withRoughness r2) self wo wi g types ∧
        PdfInner (E.withRoughness r1) self wo wi g types =
          PdfInner (E.withRoughness r2) self wo wi g types := by
    intro r1 r2 h
    have e1 : EvalInner.head (E.withRoughness r1) self wo wi types =
        EvalInner.head (E.withRoughness r2) self wo wi types := rfl
    have e2 : PdfInner.head (E.withRoughness r1) self wo wi types =
        PdfInner.head (E.withRoughness r2) self wo wi types := rfl
    constructor
    · simp only [EvalInner, e1]
      cases EvalInner.head (E.withRoughness r2) self wo wi types with
      | none => rfl
      | some L =>
        simp only [EvalInner.tail, EvalInner.orient, Externals.withRoughness, h]
    · simp only [PdfInner, e2]
      cases PdfInner.head (E.withRoughness r2) self wo wi types with
      | none => rfl
      | some L =>
        simp only [PdfInner.tail, PdfInner.orient, Externals.withRoughness, h]
  refine ⟨?_, ?_, ?_, ?_, ?_⟩
  · obtain ⟨h1, h2⟩ := clamp_sq_bounds r
    simp only [Spec.alpha, pow_two]
    refine ⟨h1, h2, ?_⟩
    intro h0
    rw [h0] at h1
    norm_num at h1
  · intro hr
    subst hr
    constructor
    · simp only [EvalInner]
      cases hh : EvalInner.head E self wo wi types with
      | none => rfl
      | some L =>
        obtain ⟨h1, h2, h3, h4⟩ := evalHead_locals E self wo wi types L hh
        simp only [Option.elim, EvalInner.tail, Spec.valueAt, Spec.alpha, Spec.fresnel,
          Math.Abs, pow_two, h1, h2, h3, h4, mul_one]
        split_ifs
        · rfl
        · rfl
        · congr 1
          ring
    · simp only [PdfInner]
      cases hh : PdfInner.head E self wo wi types with
      | none => rfl
      | some L =>
        simp only [Option.elim, PdfInner.tail, Spec.densityAt, Spec.alpha, Spec.fresnel,
          Math.Abs, pow_two, Bool.and_eq_true]
  · intro D2 G2 P2 hD hG hP
    obtain ⟨h1, h2⟩ := clamp_sq_bounds (E.GetValue self.mRoughness g)
    have e1 : EvalInner.head { E with GGX_D := D2, GGX_G := G2, GGX_Pdf_VisibleNormal := P2 }
        self wo wi types = EvalInner.head E self wo wi types := rfl
    have e2 : PdfInner.head { E with GGX_D := D2, GGX_G := G2, GGX_Pdf_VisibleNormal := P2 }
        self wo wi types = PdfInner.head E self wo wi types := rfl
    constructor
    · simp only [EvalInner, e1]
      cases EvalInner.head E self wo wi types with
      | none => rfl
      | some L =>
        simp only [EvalInner.tail, EvalInner.orient, hD _ _ h1 h2, hG _ _ _ _ h1 h2]
    · simp only [PdfInner, e2]
      cases PdfInner.head E self wo wi types with
      | none => rfl
      | some L =>
        simp only [PdfInner.tail, PdfInner.orient, hP _ _ _ h1 h2]
  · intro hr
    apply hsame
    simp only [Math.Clamp, max_eq_right hr, max_self]
  · intro hr
    apply hsame
    have h50 : (1 : K) / 50 ≤ 1 := by norm_num
    simp only [Math.Clamp, max_eq_left (h50.trans hr), min_eq_right hr, max_eq_left h50,
      min_self]

/-- C9 at a concrete input: the default material, whose roughness source returns `0.06`,
evaluates the distribution at `alpha = 0.06^2`; and roughness `0` gives the results of
roughness `0.02`. -/
theorem C9_roughness_clamped_witness :
    EvalInner Sample.E Sample.glass Sample.up1 Sample.up2 () 11 =
        (EvalInner.head Sample.E Sample.glass Sample.up1 Sample.up2 11).elim 0
          (fun L => Spec.valueAt Sample.E Sample.glass Sample.up1 Sample.up2
            (EvalInner.orient Sample.E L) L.reflect (Spec.alpha (3 / 50))) ∧
      EvalInner (Sample.E.withRoughness 0) Sample.glass Sample.up1 Sample.up2 () 11 =
        EvalInner (Sample.E.withRoughness (1 / 50)) Sample.glass Sample.up1 Sample.up2 () 11 ∧
      PdfInner (Sample.E.withRoughness 0) Sample.glass Sample.up1 Sample.up2 () 11 =
        PdfInner (Sample.E.withRoughness (1 / 50)) Sample.glass Sample.up1 Sample.up2 () 11 :=
  ⟨((C9_roughness_clamped Sample.E Sample.glass Sample.up1 Sample.up2 () 11 (3 / 50)).2.1
      rfl).1,
    (C9_roughness_clamped Sample.E Sample.glass Sample.up1 Sample.up2 () 11 0).2.2.2.1
      (by norm_num)⟩

/-- C10. Non-negativity of the results is broken by the source at an index-matched pair: for
`mEtai = mEtat = 1`, `wo = (0, 0, 1)`, `wi = (0, 0, -1)` and all lobes requested, the pair is
a refraction pair, the vector `etai wo + etat wi` is `ZERO` with length `0`, and the
`Normalize` of line 91 (`PdfInner`) and of line 154 (`EvalInner`) divides `0` by `0`.  Only
the reflection branch of `EvalInner` tests `wh == ZERO`; here the NaN reaches `Math::Abs`,
and the value returned is not `>= 0`. -/
theorem C10_index_matched_zero_over_zero :
    CosTheta Sample.normal * CosTheta Sample.down1 < 0 ∧
      Spec.refractSum Sample.matched Sample.normal Sample.down1 = Vector3.ZERO ∧
      Math.Length Sample.E (Spec.refractSum Sample.matched Sample.normal Sample.down1) = 0 ∧
      ((0 : ℚ), (0 : ℚ)) ∈
        PdfInner.divisions Sample.E Sample.matched Sample.normal Sample.down1 11 ∧
      ((0 : ℚ), (0 : ℚ)) ∈
        EvalInner.divisions Sample.E Sample.matched Sample.normal Sample.down1 () 11 := by
  have hmask : (2 ||| 8) &&& 11 = 2 ||| 8 := by decide
  have hmask2 : 11 &&& (2 ||| 8) = 2 ||| 8 := by decide
  refine ⟨?_, ?_, ?_, ?_, ?_⟩
  · norm_num [CosTheta, Sample.normal, Sample.down1]
  · norm_num [Spec.refractSum, Spec.etaI, Spec.etaT, CosTheta, Sample.matched, Sample.normal,
      Sample.down1, Vector3.add_def, Vector3.smul_def, Vector3.ZERO]
  · norm_num [Math.Length, Math.Dot, Spec.refractSum, Spec.etaI, Spec.etaT, CosTheta,
      Sample.E, Sample.matched, Sample.normal, Sample.down1, Vector3.add_def,
      Vector3.smul_def]
  · norm_num [PdfInner.divisions, Math.NormalizeDivisions, Math.Length, Math.Dot, CosTheta,
      RefractScatter, Sample.E, Sample.matched, Sample.normal, Sample.down1,
      Vector3.add_def, Vector3.smul_def, hmask2]
  · norm_num [EvalInner.divisions, Math.NormalizeDivisions, Math.Length, Math.Dot, CosTheta,
      RefractScatter, Sample.E, Sample.matched, Sample.normal, Sample.down1,
      Vector3.add_def, Vector3.smul_def, hmask]

/-- C11, as stated, fails: the default material has `mEtat = 1.5` inside `[1 + 1e-4, 1.8]`,
and after `SetParameter("IOR", p)` with `p.Value = 5` the stored `mEtat` is `5`, outside the
range. -/
theorem C11_ior_range_counterexample :
    (1 + 1 / 10000 ≤ Sample.glass.mEtat ∧ Sample.glass.mEtat ≤ 9 / 5) ∧
      (SetParameter Sample.B Sample.glass "IOR" (Sample.floatParam 5)).mEtat = 5 ∧
      ¬ ((SetParameter Sample.B Sample.glass "IOR" (Sample.floatParam 5)).mEtat ≤ 9 / 5) := by
  have h : (SetParameter Sample.B Sample.glass "IOR" (Sample.floatParam 5)).mEtat = 5 := by
    simp [SetParameter, Sample.floatParam]
  refine ⟨?_, h, ?_⟩
  · norm_num [Sample.glass]
  · rw [h]; norm_num

/-- C11, amended.  `SetParameter` stores the value it is given and does not clamp: after
`SetParameter("IOR", p)` the stored `mEtat` is `p.Value`.  Hence, starting from an instance
whose `mEtat` lies in `[1 + 1e-4, 1.8]`, after `SetParameter(name, p)` the stored `mEtat`
still lies in that range provided that `p.Value` does whenever `name` is `"IOR"`. -/
theorem C11_ior_range_amended (B : BSDFBase K) (self : RoughDielectric K) (name : String)
    (p : Parameter K)
    (hself : 1 + 1 / 10000 ≤ self.mEtat ∧ self.mEtat ≤ 9 / 5)
    (hp : name = "IOR" → 1 + 1 / 10000 ≤ p.Value ∧ p.Value ≤ 9 / 5) :
    (name = "IOR" → (SetParameter B self name p).mEtat = p.Value) ∧
      1 + 1 / 10000 ≤ (SetParameter B self name p).mEtat ∧
      (SetParameter B self name p).mEtat ≤ 9 / 5 := by
  by_cases h1 : name = "IOR"
  · subst h1
    have h : (SetParameter B self "IOR" p).mEtat = p.Value := by
      simp [SetParameter]
    refine ⟨fun _ => h, ?_, ?_⟩
    · rw [h]; exact (hp rfl).1
    · rw [h]; exact (hp rfl).2
  · have h : (SetParameter B self name p).mEtat = self.mEtat := by
      simp only [SetParameter]
      split_ifs <;> rfl
    refine ⟨fun h2 => absurd h2 h1, ?_, ?_⟩
    · rw [h]; exact hself.1
    · rw [h]; exact hself.2

/-- C11 amended, at a concrete input: the index of the default material set to `1.33`. -/
theorem C11_ior_range_amended_witness :
    (SetParameter Sample.B Sample.glass "IOR" (Sample.floatParam (133 / 100))).mEtat
        = (Sample.floatParam (133 / 100)).Value ∧
      1 + 1 / 10000 ≤
        (SetParameter Sample.B Sample.glass "IOR" (Sample.floatParam (133 / 100))).mEtat ∧
      (SetParameter Sample.B Sample.glass "IOR" (Sample.floatParam (133 / 100))).mEtat
        ≤ 9 / 5 :=
  have h := C11_ior_range_amended Sample.B Sample.glass "IOR" (Sample.floatParam (133 / 100))
    (by norm_num [Sample.glass]) (by intro _; norm_num [Sample.floatParam])
  ⟨h.1 rfl, h.2.1, h.2.2⟩

/-- C12. Parameter get-after-set, when the base class does not define the name in the state
reached.  (1) After `SetParameter("Roughness", p)` with `p` of type `Float` the roughness
source is the constant texture of value `p.Value`, whatever it was before, and
`GetParameter("Roughness")` has type `Float`, value `p.Value`, `Min = 0.01`, `Max = 1.0`.
(2) After `SetParameter("IOR", p)`, `GetParameter("IOR")` has type `Float`, value `p.Value`,
`Min = 1 + 1e-4`, `Max = 1.8`. -/
theorem C12_get_after_set (B : BSDFBase K) (self : RoughDielectric K) (p : Parameter K) :
    (p.type = ParameterType.Float →
        (B.GetParameter (SetParameter B self "Roughness" p).mpTexture "Roughness").type
          = ParameterType.None →
        (SetParameter B self "Roughness" p).mRoughness = Texture2D.constant p.Value ∧
          (GetParameter B (SetParameter B self "Roughness" p) "Roughness").type
            = ParameterType.Float ∧
          (GetParameter B (SetParameter B self "Roughness" p) "Roughness").Value = p.Value ∧
          (GetParameter B (SetParameter B self "Roughness" p) "Roughness").Min = 1 / 100 ∧
          (GetParameter B (SetParameter B self "Roughness" p) "Roughness").Max = 1) ∧
      ((B.GetParameter (SetParameter B self "IOR" p).mpTexture "IOR").type
          = ParameterType.None →
        (GetParameter B (SetParameter B self "IOR" p) "IOR").type = ParameterType.Float ∧
          (GetParameter B (SetParameter B self "IOR" p) "IOR").Value = p.Value ∧
          (GetParameter B (SetParameter B self "IOR" p) "IOR").Min = 1 + 1 / 10000 ∧
          (GetParameter B (SetParameter B self "IOR" p) "IOR").Max = 9 / 5) := by
  constructor
  · intro hp hbase
    have hr : (SetParameter B self "Roughness" p).mRoughness = Texture2D.constant p.Value := by
      cases hm : self.mRoughness <;>
        simp [SetParameter, hp, hm, Texture2D.IsConstant, Texture2D.SetValue]
    refine ⟨hr, ?_⟩
    simp [GetParameter, hbase, hr, Texture2D.GetValue]
  · intro hbase
    have he : (SetParameter B self "IOR" p).mEtat = p.Value := by
      simp [SetParameter]
    simp [GetParameter, hbase, he]

/-- C12 at a concrete input: the roughness of the default material set to `0.25`. -/
theorem C12_get_after_set_witness :
    (SetParameter Sample.B Sample.glass "Roughness" (Sample.floatParam (1 / 4))).mRoughness
        = Texture2D.constant (1 / 4) ∧
      (GetParameter Sample.B
        (SetParameter Sample.B Sample.glass "Roughness" (Sample.floatParam (1 / 4)))
        "Roughness").Value = 1 / 4 :=
  have h := (C12_get_after_set Sample.B Sample.glass (Sample.floatParam (1 / 4))).1 rfl rfl
  ⟨h.1, h.2.2.1⟩

/-- C15. The half-vector is symmetric under exchanging the two directions.  For every pair
with non-zero cosine product, every index pair and mask, `EvalInner` and `PdfInner` pass the
gates for `(wo, wi)` exactly when they do for `(wi, wo)`, and then hold the same half-vector,
before and after re-orientation, in the reflection case and, the index pair being swapped
exactly when the first direction is below the surface, in the refraction case; hence
`GGX_D` is evaluated at the same half-vector for both orders. -/
theorem C15_half_vector_symmetric (E : Externals K Geom) (self : RoughDielectric K)
    (wo wi : Vector3 K) (types : Nat) (hfac : CosTheta wo * CosTheta wi ≠ 0) :
    (EvalInner.head E self wo wi types).map (fun L => (L.wh, EvalInner.orient E L)) =
        (EvalInner.head E self wi wo types).map (fun L => (L.wh, EvalInner.orient E L)) ∧
      (PdfInner.head E self wo wi types).map (fun L => (L.wh, PdfInner.orient E L)) =
        (PdfInner.head E self wi wo types).map (fun L => (L.wh, PdfInner.orient E L)) ∧
      ∀ (a : K) (L1 L2 : EvalLocals K), EvalInner.head E self wo wi types = some L1 →
        EvalInner.head E self wi wo types = some L2 →
        E.GGX_D (EvalInner.orient E L1) a = E.GGX_D (EvalInner.orient E L2) a := by
  have hfac2 : CosTheta wi * CosTheta wo ≠ 0 := by rwa [mul_comm]
  have hE : (EvalInner.head E self wo wi types).map (fun L => (L.wh, EvalInner.orient E L)) =
      (EvalInner.head E self wi wo types).map (fun L => (L.wh, EvalInner.orient E L)) := by
    by_cases hpos : 0 < CosTheta wo * CosTheta wi
    · have hpos2 : 0 < CosTheta wi * CosTheta wo := by rwa [mul_comm]
      have hz := sum_ne_ZERO hpos
      by_cases hm : ReflectScatter E &&& types = ReflectScatter E
      · simp [EvalInner.head, EvalInner.orient, hfac, hfac2, hpos, hpos2, hm, hz,
          Vector3.add_comm_vec wi wo]
      · simp [EvalInner.head, hfac, hfac2, hpos, hpos2, hm]
    · have hpos2 : ¬ (0 < CosTheta wi * CosTheta wo) := by rwa [mul_comm]
      have hneg : CosTheta wo * CosTheta wi < 0 := lt_of_le_of_ne (not_lt.mp hpos) hfac
      by_cases hm : RefractScatter E &&& types = RefractScatter E
      · by_cases he : 0 < CosTheta wo
        · have he2 : ¬ (0 < CosTheta wi) := fun h => hpos (mul_pos he h)
          simp [EvalInner.head, EvalInner.orient, hfac, hfac2, hpos, hpos2, hm, he, he2,
            Vector3.add_comm_vec (self.mEtat * wi) (self.mEtai * wo)]
        · have he2 : 0 < CosTheta wi := by
            by_contra h
            have h1 : CosTheta wo ≤ 0 := not_lt.mp he
            have h2 : CosTheta wi ≤ 0 := not_lt.mp h
            exact absurd (mul_nonneg_of_nonpos_of_nonpos h1 h2) (not_le.mpr hneg)
          simp [EvalInner.head, EvalInner.orient, hfac, hfac2, hpos, hpos2, hm, he, he2,
            Vector3.add_comm_vec (self.mEtai * wi) (self.mEtat * wo)]
      · simp [EvalInner.head, hfac, hfac2, hpos, hpos2, hm]
  have hP : (PdfInner.head E self wo wi types).map (fun L => (L.wh, PdfInner.orient E L)) =
      (PdfInner.head E self wi wo types).map (fun L => (L.wh, PdfInner.orient E L)) := by
    have h1 := (heads_agree E self wo wi types)
    have h2 := (heads_agree E self wi wo types)
    rw [h1, h2]
    exact hE
  refine ⟨hE, hP, ?_⟩
  intro a L1 L2 h1 h2
  rw [h1, h2] at hE
  simp only [Option.map_some', Option.some.injEq, Prod.mk.injEq] at hE
  rw [hE.2]

/-- C15 at a concrete input: a refraction pair through the surface and its exchange. -/
theorem C15_half_vector_symmetric_witness :
    (EvalInner.head Sample.E Sample.glass Sample.normal Sample.down1 11).map
        (fun L => (L.wh, EvalInner.orient Sample.E L)) =
      (EvalInner.head Sample.E Sample.glass Sample.down1 Sample.normal 11).map
        (fun L => (L.wh, EvalInner.orient Sample.E L)) :=
  (C15_half_vector_symmetric Sample.E Sample.glass Sample.normal Sample.down1 11
    (by norm_num [CosTheta, Sample.normal, Sample.down1])).1

/-- C16. The zero half-vector cannot occur in the reflection lobe.  For every pair with
`CosTheta wo * CosTheta wi > 0` the third component of `wo + wi` is not `0`, so `wo + wi` is
not `ZERO`: when the mask permits the lobe `EvalInner` gets past its `wh == ZERO` test with
`wh = Normalize(wo + wi)`, and `PdfInner`, which has no such test, normalises the non-zero
vector `wo + wi` (its length is not `0` where the square root is exact) and divides by
`4 dot(wi, wh)` for that `wh`. -/
theorem C16_reflection_half_vector_defined (E : Externals K Geom) (self : RoughDielectric K)
    (wo wi : Vector3 K) (types : Nat) (hfac : 0 < CosTheta wo * CosTheta wi) :
    CosTheta (wo + wi) ≠ 0 ∧ wo + wi ≠ Vector3.ZERO ∧
      (ReflectScatter E &&& types = ReflectScatter E →
        ∃ L, EvalInner.head E self wo wi types = some L ∧
          L.wh = Math.Normalize E (wo + wi)) ∧
      (∀ L, PdfInner.head E self wo wi types = some L →
        L.wh = Math.Normalize E (wo + wi) ∧ L.dwh_dwi = 1 / (4 * Math.Dot wi L.wh)) ∧
      (Math.Length E (wo + wi) * Math.Length E (wo + wi) = Math.Dot (wo + wi) (wo + wi) →
        Math.Length E (wo + wi) ≠ 0) := by
  have hz := sum_ne_ZERO hfac
  refine ⟨?_, hz, ?_, ?_, ?_⟩
  · exact add_ne_zero_of_mul_pos hfac
  · intro hm
    simp [EvalInner.head, hfac.ne.symm, hfac, hm, hz]
  · intro L hL
    simp only [PdfInner.head, hfac.ne.symm, hfac, if_false, if_true, decide_True,
      gt_iff_lt] at hL
    split_ifs at hL
    simp only [Option.some.injEq] at hL
    subst hL
    exact ⟨rfl, rfl⟩
  · intro hS h0
    have hp := dot_self_pos hz
    rw [h0, mul_zero] at hS
    exact absurd hS.symm hp.ne.symm

/-- C16 at a concrete input: a reflection pair above the surface, all lobes requested. -/
theorem C16_reflection_half_vector_defined_witness :
    Sample.up1 + Sample.up2 ≠ Vector3.ZERO ∧
      Math.Length Sample.E (Sample.up1 + Sample.up2) ≠ 0 :=
  have h := C16_reflection_half_vector_defined Sample.E Sample.glass Sample.up1 Sample.up2 11
    (by norm_num [CosTheta, Sample.up1, Sample.up2])
  ⟨h.2.1, h.2.2.2.2 (by
    norm_num [Math.Length, Math.Dot, Sample.E, Sample.up1, Sample.up2, Vector3.add_def])⟩

/-- C17. Refraction denominators are non-zero.  Let `wo`, `wi` be unit directions with
`CosTheta wo * CosTheta wi < 0`, the indices positive and different, `v = etaI wo + etaT wi`
with the entering-based pair, the square root exact at `dot(v, v)`, and `Sign` equal to `1` on
positive and `-1` on negative numbers.  Then `v` is not `ZERO`, its length is not `0`,
`dot(v, v) >= (etaI - etaT)^2 > 0`, and `(etaI dot(wo, wh) + etaT dot(wi, wh))^2 = dot(v, v)`
for the half-vector `wh = -Normalize v` and, when its normal component is not `0`, for the
re-oriented one.  So the divisor `sqrtDenom * sqrtDenom` of `PdfInner` is not `0`, and the
divisor `sqrtDenom * sqrtDenom * ODotN * IDotN` of `EvalInner` is not `0` when the normal
component of the half-vector is not `0`; when it is `0` and `GGX_D` vanishes on half-vectors
that are not above the surface, `D` is `0` and `EvalInner` returns before it divides. -/
theorem C17_refraction_denominators (E : Externals K Geom) (self : RoughDielectric K)
    (wo wi : Vector3 K) (types : Nat)
    (hwo : Math.Dot wo wo = 1) (hwi : Math.Dot wi wi = 1)
    (hfac : CosTheta wo * CosTheta wi < 0)
    (hi : 0 < self.mEtai) (ht : 0 < self.mEtat) (hne : self.mEtai ≠ self.mEtat)
    (hS : Math.Length E (Spec.refractSum self wo wi) * Math.Length E (Spec.refractSum self wo wi)
      = Math.Dot (Spec.refractSum self wo wi) (Spec.refractSum self wo wi))
    (hpos : ∀ x, 0 < x → E.Sign x = 1) (hneg : ∀ x, x < 0 → E.Sign x = -1) :
    Spec.refractSum self wo wi ≠ Vector3.ZERO ∧
      Math.Length E (Spec.refractSum self wo wi) ≠ 0 ∧
      0 < (Spec.etaI self wo - Spec.etaT self wo) ^ 2 ∧
      (Spec.etaI self wo - Spec.etaT self wo) ^ 2 ≤
        Math.Dot (Spec.refractSum self wo wi) (Spec.refractSum self wo wi) ∧
      Spec.sqrtDenom self wo wi (-Math.Normalize E (Spec.refractSum self wo wi)) ^ 2 =
        Math.Dot (Spec.refractSum self wo wi) (Spec.refractSum self wo wi) ∧
      (CosTheta (-Math.Normalize E (Spec.refractSum self wo wi)) ≠ 0 →
        Spec.sqrtDenom self wo wi (Spec.whRefract E self wo wi) ^ 2 =
          Math.Dot (Spec.refractSum self wo wi) (Spec.refractSum self wo wi)) ∧
      (∀ L, PdfInner.head E self wo wi types = some L →
        L.wh = -Math.Normalize E (Spec.refractSum self wo wi) ∧
          L.dwh_dwi = Spec.etaT self wo * Spec.etaT self wo * Math.Dot wi L.wh /
            (Spec.sqrtDenom self wo wi L.wh * Spec.sqrtDenom self wo wi L.wh) ∧
          Spec.sqrtDenom self wo wi L.wh * Spec.sqrtDenom self wo wi L.wh ≠ 0) ∧
      (∀ L, EvalInner.head E self wo wi types = some L →
        L.wh = -Math.Normalize E (Spec.refractSum self wo wi) ∧
          L.etai = Spec.etaI self wo ∧ L.etat = Spec.etaT self wo ∧
          L.ODotN * L.IDotN ≠ 0 ∧
          (CosTheta L.wh ≠ 0 →
            (L.etai * Math.Dot wo (EvalInner.orient E L) +
                L.etat * Math.Dot wi (EvalInner.orient E L)) *
              (L.etai * Math.Dot wo (EvalInner.orient E L) +
                L.etat * Math.Dot wi (EvalInner.orient E L)) * L.ODotN * L.IDotN ≠ 0) ∧
          (CosTheta L.wh = 0 → (∀ wh a, CosTheta wh ≤ 0 → E.GGX_D wh a = 0) →
            ∀ a, E.GGX_D (EvalInner.orient E L) a = 0)) := by
  have ha : 0 < Spec.etaI self wo := by
    unfold Spec.etaI; split_ifs <;> assumption
  have hb : 0 < Spec.etaT self wo := by
    unfold Spec.etaT; split_ifs <;> assumption
  have hab : Spec.etaI self wo - Spec.etaT self wo ≠ 0 := by
    unfold Spec.etaI Spec.etaT
    split_ifs
    · exact sub_ne_zero.mpr hne
    · exact sub_ne_zero.mpr hne.symm
  have hsq : 0 < (Spec.etaI self wo - Spec.etaT self wo) ^ 2 := by positivity
  have hbound : (Spec.etaI self wo - Spec.etaT self wo) ^ 2 ≤
      Math.Dot (Spec.refractSum self wo wi) (Spec.refractSum self wo wi) :=
    refract_len_bound _ _ wo wi ha hb hwo hwi
  have hD : 0 < Math.Dot (Spec.refractSum self wo wi) (Spec.refractSum self wo wi) :=
    lt_of_lt_of_le hsq hbound
  have hL0 : Math.Length E (Spec.refractSum self wo wi) ≠ 0 := by
    intro h0
    rw [h0, mul_zero] at hS
    exact absurd hS.symm hD.ne.symm
  have hv : Spec.refractSum self wo wi ≠ Vector3.ZERO := by
    intro h0
    rw [h0] at hD
    simp [Math.Dot, Vector3.ZERO] at hD
  have hden : Spec.sqrtDenom self wo wi (-Math.Normalize E (Spec.refractSum self wo wi)) =
      -Math.Length E (Spec.refractSum self wo wi) :=
    sqrtDenom_eq _ _ wo wi _ hS hL0
  have hden2 : Spec.sqrtDenom self wo wi (-Math.Normalize E (Spec.refractSum self wo wi)) ^ 2 =
      Math.Dot (Spec.refractSum self wo wi) (Spec.refractSum self wo wi) := by
    rw [hden, ← hS]; ring
  have hor : ∀ s : K, Spec.sqrtDenom self wo wi
      (s * -Math.Normalize E (Spec.refractSum self wo wi)) =
      s * Spec.sqrtDenom self wo wi (-Math.Normalize E (Spec.refractSum self wo wi)) := by
    intro s
    simp only [Spec.sqrtDenom, dot_smul]
    ring
  have hden3 : CosTheta (-Math.Normalize E (Spec.refractSum self wo wi)) ≠ 0 →
      Spec.sqrtDenom self wo wi (Spec.whRefract E self wo wi) ^ 2 =
        Math.Dot (Spec.refractSum self wo wi) (Spec.refractSum self wo wi) := by
    intro hc
    have hw : Spec.whRefract E self wo wi =
        E.Sign (CosTheta (-Math.Normalize E (Spec.refractSum self wo wi))) *
          -Math.Normalize E (Spec.refractSum self wo wi) := rfl
    rw [hw, hor, mul_pow, hden2]
    rcases sign_cases E hpos hneg hc with h | h <;> rw [h] <;> ring
  have hn : ¬ (0 < CosTheta wo * CosTheta wi) := not_lt.mpr hfac.le
  have hfn : CosTheta wo * CosTheta wi ≠ 0 := hfac.ne
  refine ⟨hv, hL0, hsq, hbound, hden2, hden3, ?_, ?_⟩
  · intro L hL
    have hwh : L.wh = -Math.Normalize E (Spec.refractSum self wo wi) ∧
        L.dwh_dwi = Spec.etaT self wo * Spec.etaT self wo * Math.Dot wi L.wh /
          (Spec.sqrtDenom self wo wi L.wh * Spec.sqrtDenom self wo wi L.wh) := by
      by_cases he : 0 < CosTheta wo
      · simp only [PdfInner.head, hfn, hn, he, if_false, if_true, decide_False, decide_True,
          gt_iff_lt, Bool.false_eq_true, Bool.not_true, Bool.not_false] at hL
        split_ifs at hL
        simp only [Option.some.injEq] at hL
        subst hL
        simp [Spec.refractSum, Spec.sqrtDenom, Spec.etaI, Spec.etaT, he]
      · simp only [PdfInner.head, hfn, hn, he, if_false, if_true, decide_False, decide_True,
          gt_iff_lt, Bool.false_eq_true, Bool.not_true, Bool.not_false] at hL
        split_ifs at hL
        simp only [Option.some.injEq] at hL
        subst hL
        simp [Spec.refractSum, Spec.sqrtDenom, Spec.etaI, Spec.etaT, he]
    refine ⟨hwh.1, hwh.2, ?_⟩
    rw [hwh.1, ← pow_two, hden2]
    exact hD.ne.symm
  · intro L hL
    have hwh : L.wh = -Math.Normalize E (Spec.refractSum self wo wi) ∧
        L.etai = Spec.etaI self wo ∧ L.etat = Spec.etaT self wo ∧
        L.ODotN * L.IDotN = CosTheta wo * CosTheta wi := by
      by_cases he : 0 < CosTheta wo
      · simp only [EvalInner.head, hfn, hn, he, if_false, if_true, decide_False, decide_True,
          gt_iff_lt, Bool.false_eq_true, Bool.not_true, Bool.not_false] at hL
        split_ifs at hL
        simp only [Option.some.injEq] at hL
        subst hL
        simp [Spec.refractSum, Spec.etaI, Spec.etaT, he]
      · simp only [EvalInner.head, hfn, hn, he, if_false, if_true, decide_False, decide_True,
          gt_iff_lt, Bool.false_eq_true, Bool.not_true, Bool.not_false] at hL
        split_ifs at hL
        simp only [Option.some.injEq] at hL
        subst hL
        simp [Spec.refractSum, Spec.etaI, Spec.etaT, he]
    obtain ⟨h1, h2, h3, h4⟩ := hwh
    refine ⟨h1, h2, h3, ?_, ?_, ?_⟩
    · rw [h4]; exact hfn
    · intro hc
      have hq : L.etai * Math.Dot wo (EvalInner.orient E L) +
          L.etat * Math.Dot wi (EvalInner.orient E L) =
          Spec.sqrtDenom self wo wi (Spec.whRefract E self wo wi) := by
        simp only [EvalInner.orient, Spec.sqrtDenom, Spec.whRefract, Spec.reorient, h1, h2, h3]
        rfl
      rw [h1] at hc
      have h5 := hden3 hc
      rw [hq, mul_assoc, ← pow_two, h5, h4]
      exact mul_ne_zero hD.ne.symm hfn
    · intro hc hDc a
      apply hDc
      rw [EvalInner.orient, Vector3.smul_def]
      simp only [CosTheta] at hc ⊢
      rw [hc, mul_zero]

/-- C17 at a concrete input: straight through the surface of the default material; the
vector `etaI wo + etaT wi` is `(0, 0, -1/2)` and its squared length `1/4 = (1 - 1.5)^2`. -/
theorem C17_refraction_denominators_witness :
    Spec.refractSum Sample.glass Sample.normal Sample.down1 ≠ Vector3.ZERO ∧
      Spec.sqrtDenom Sample.glass Sample.normal Sample.down1
          (-Math.Normalize Sample.E
            (Spec.refractSum Sample.glass Sample.normal Sample.down1)) ^ 2 =
        Math.Dot (Spec.refractSum Sample.glass Sample.normal Sample.down1)
          (Spec.refractSum Sample.glass Sample.normal Sample.down1) :=
  have h := C17_refraction_denominators Sample.E Sample.glass Sample.normal Sample.down1 11
    (by norm_num [Math.Dot, Sample.normal])
    (by norm_num [Math.Dot, Sample.down1])
    (by norm_num [CosTheta, Sample.normal, Sample.down1])
    (by norm_num [Sample.glass]) (by norm_num [Sample.glass]) (by norm_num [Sample.glass])
    (by norm_num [Math.Length, Math.Dot, Spec.refractSum, Spec.etaI, Spec.etaT, CosTheta,
      Sample.E, Sample.glass, Sample.normal, Sample.down1, Vector3.add_def,
      Vector3.smul_def])
    (by intro x hx; simp [Sample.E, hx])
    (by intro x hx; simp [Sample.E, hx, not_lt.mpr hx.le])
  ⟨h.1, h.2.2.2.2.1⟩

end Claims

/-! ## The frame of `SetParameter` -/

section Frame

variable {K : Type}

/-- C14. Frame of the parameter-set operation.  For every name and parameter value
`SetParameter` leaves `mEtai` unchanged; `SetParameter("IOR", p)` leaves the roughness source
unchanged; `SetParameter("Roughness", p)` leaves `mEtat` unchanged and, when `p` is neither of
type `Float` nor `TextureMap`, the roughness source too; any other name changes none of the
roughness source, `mEtai`, `mEtat`. -/
theorem C14_set_parameter_frame (B : BSDFBase K) (self : RoughDielectric K) (name : String)
    (p : Parameter K) :
    (SetParameter B self name p).mEtai = self.mEtai ∧
      (name = "IOR" → (SetParameter B self name p).mRoughness = self.mRoughness) ∧
      (name = "Roughness" → (SetParameter B self name p).mEtat = self.mEtat ∧
        (p.type ≠ ParameterType.Float → p.type ≠ ParameterType.TextureMap →
          (SetParameter B self name p).mRoughness = self.mRoughness)) ∧
      (name ≠ "Roughness" → name ≠ "IOR" →
        (SetParameter B self name p).mRoughness = self.mRoughness ∧
          (SetParameter B self name p).mEtai = self.mEtai ∧
          (SetParameter B self name p).mEtat = self.mEtat) := by
  refine ⟨?_, ?_, ?_, ?_⟩
  · simp only [SetParameter]
    split_ifs <;> rfl
  · intro h
    subst h
    simp [SetParameter]
  · intro h
    subst h
    refine ⟨?_, ?_⟩
    · simp only [SetParameter]
      split_ifs <;> rfl
    · intro h1 h2
      simp [SetParameter, h1, h2]
  · intro h1 h2
    simp [SetParameter, h1, h2]

/-- C14 at a concrete input: a `"Roughness"` entry of a type the header does not handle leaves
the default material as it is. -/
theorem C14_set_parameter_frame_witness :
    (SetParameter Sample.B Sample.glass "Roughness" (Sample.otherParam 7)).mEtat
        = Sample.glass.mEtat ∧
      (SetParameter Sample.B Sample.glass "Roughness" (Sample.otherParam 7)).mRoughness
        = Sample.glass.mRoughness :=
  have h := (C14_set_parameter_frame Sample.B Sample.glass "Roughness"
    (Sample.otherParam 7)).2.2.1 rfl
  ⟨h.1, h.2 (by simp [Sample.otherParam]) (by simp [Sample.otherParam])⟩

end Frame

end EDXRay
